import Mathlib

/-!
# Verification of the BBC-audio RAG retrieval and conversation subsystem

Shallow embedding of `src/chat/vector_store.py` and `src/chat/chat_engine.py`
(chunking, indexing, filtered search, context assembly, session persistence),
with theorems checking the specification's claims against the code.

Text is represented as `List Char`; Python string slicing, `rfind` and
`strip` are embedded faithfully (including Python's negative-index slice
semantics, which the chunking loop can actually hit).
-/

namespace BbcRag

/-! ## Python string primitives -/

/-- Python whitespace for `str.strip()`: space, tab, newline, carriage
return, vertical tab, form feed. -/
def pyIsSpace (c : Char) : Bool :=
  c = ' ' || c = '\t' || c = '\n' || c = '\r' || c = '\x0b' || c = '\x0c'

/-- Normalization of one Python slice bound against length `n`:
negative indices count from the end, then the bound is clamped to `[0, n]`. -/
def pyIndex (n i : Int) : Int :=
  if i < 0 then max (n + i) 0 else min i n

/-- Python slice `t[a:b]` with integer (possibly negative) bounds; the
result is empty when the normalized start is not below the normalized stop. -/
def pySlice (t : List Char) (a b : Int) : List Char :=
  let n : Int := t.length
  let a' := pyIndex n a
  let b' := pyIndex n b
  if a' < b' then (t.drop a'.toNat).take (b' - a').toNat else []

/-- Python `t.rfind(c)`: index of the last occurrence of `c`, or `-1`. -/
def rfind (c : Char) : List Char → Int
  | [] => -1
  | x :: xs =>
    let r := rfind c xs
    if r ≥ 0 then r + 1 else if x = c then 0 else -1

/-- Python `t.strip()`: drop whitespace from both ends. -/
def pyStrip (t : List Char) : List Char :=
  ((t.dropWhile pyIsSpace).reverse.dropWhile pyIsSpace).reverse

/-! ## Chunker (`VectorStore.chunk_text`)

One iteration of the `while start < len(text)` loop body, and the loop
itself.  The loop is embedded with explicit fuel because — as proved
below — it does not terminate for every parameter pair, so it is not a
total function of its arguments.  `chunk_text` runs the loop with fuel
`len(text) + 1`, which suffices whenever the loop terminates at all
under the configured parameters (`2*overlap ≤ chunk_size`, see
`chunkStep_start_lt`). -/

/-- One iteration of the loop body of `chunk_text`: from the current
`start`, compute the chunk that is appended and the next `start`.
The Python guard `break_point > chunk_size * 0.5` compares an `int`
against an exact binary float; for the magnitudes in play it is
equivalent to `2 * break_point > chunk_size`, which is how it is
embedded. -/
def chunkStep (t : List Char) (chunk_size overlap start : Int) :
    List Char × Int :=
  let n : Int := t.length
  let e := start + chunk_size
  let chunk := pySlice t start e
  let p : List Char × Int :=
    if e < n then
      let last_period := rfind '.' chunk
      let last_newline := rfind '\n' chunk
      let break_point := max last_period last_newline
      if 2 * break_point > chunk_size then
        (pySlice chunk 0 (break_point + 1), start + break_point + 1)
      else (chunk, e)
    else (chunk, e)
  (pyStrip p.1, p.2 - overlap)

/-- The `while start < len(text)` loop of `chunk_text`, with fuel.
Returns `none` when the fuel runs out before the loop exits. -/
def chunkTextAux (t : List Char) (chunk_size overlap : Int) :
    Nat → Int → Option (List (List Char))
  | 0, _ => none
  | fuel + 1, start =>
    if start < (t.length : Int) then
      let s := chunkStep t chunk_size overlap start
      (chunkTextAux t chunk_size overlap fuel s.2).map (s.1 :: ·)
    else some []

/-- `VectorStore.chunk_text(text, chunk_size, overlap)`: run the loop
from `start = 0`.  Fuel `len(text) + 1` is enough for every terminating
parameter pair (the loop advances `start` by at least one per
iteration then, see `chunk_text_terminates`). -/
def chunk_text (t : List Char) (chunk_size overlap : Int) :
    Option (List (List Char)) :=
  chunkTextAux t chunk_size overlap (t.length + 1) 0

/-! ## Chunk identifiers and metadata (`VectorStore.add_transcript`, lines 113-123) -/

/-- One chunk's metadata record as built by `add_transcript`:
`{'source': str(transcript_path), 'chunk_index': i, 'total_chunks': len(chunks)}`
(the merged sidecar `file_metadata` is assumed not to override these keys). -/
structure ChunkMeta where
  source : String
  chunk_index : Nat
  total_chunks : Nat
deriving DecidableEq, Repr

/-- `ids = [f"{transcript_path.stem}_chunk_{i}" for i in range(len(chunks))]`. -/
def chunkIds (stem : String) (n : Nat) : List String :=
  (List.range n).map (fun i => stem ++ "_chunk_" ++ toString i)

/-- `metadatas = [{'source': ..., 'chunk_index': i, 'total_chunks': n, ...} for i in range(n)]`. -/
def chunkMetadatas (source : String) (n : Nat) : List ChunkMeta :=
  (List.range n).map (fun i => ⟨source, i, n⟩)

/-- `Config.CHUNK_SIZE` (config.py line 33). -/
def CHUNK_SIZE : Int := 1000

/-- `Config.CHUNK_OVERLAP` (config.py line 34). -/
def CHUNK_OVERLAP : Int := 200

/-- `Config.TOP_K_RESULTS` (config.py line 35). -/
def TOP_K_RESULTS : Nat := 5

/-! ## Chunker lemmas -/

/-- A Python slice is a sublist of the sliced text. -/
lemma pySlice_sublist (t : List Char) (a b : Int) :
    (pySlice t a b).Sublist t := by
  unfold pySlice
  dsimp only
  split
  · exact (List.take_sublist _ _).trans (List.drop_sublist _ _)
  · exact List.nil_sublist t

/-- Every character of a Python slice is a character of the sliced text. -/
lemma pySlice_mem {t : List Char} {a b : Int} {x : Char}
    (hx : x ∈ pySlice t a b) : x ∈ t :=
  (pySlice_sublist t a b).mem hx

/-- `rfind` returns `-1` exactly on lists that do not contain the character. -/
lemma rfind_eq_neg_one {c : Char} {l : List Char}
    (h : ∀ x ∈ l, x ≠ c) : rfind c l = -1 := by
  induction l with
  | nil => rfl
  | cons x xs ih =>
    have hxs : rfind c xs = -1 := ih (fun y hy => h y (List.mem_cons_of_mem x hy))
    have hx : x ≠ c := h x (List.mem_cons_self x xs)
    simp [rfind, hxs, hx]

/-- On text with no `'.'` and no `'\n'`, the sentence-boundary break never
fires, so one loop iteration is a plain sliding window: it appends the
stripped raw window and advances `start` by `chunk_size - overlap`. -/
lemma chunkStep_no_boundary {t : List Char} {cs ov s : Int}
    (hnb : ∀ x ∈ t, x ≠ '.' ∧ x ≠ '\n') (hcs : 0 ≤ cs) :
    chunkStep t cs ov s = (pyStrip (pySlice t s (s + cs)), s + cs - ov) := by
  unfold chunkStep
  have hdot : rfind '.' (pySlice t s (s + cs)) = -1 :=
    rfind_eq_neg_one (fun x hx => (hnb x (pySlice_mem hx)).1)
  have hnl : rfind '\n' (pySlice t s (s + cs)) = -1 :=
    rfind_eq_neg_one (fun x hx => (hnb x (pySlice_mem hx)).2)
  simp only [hdot, hnl]
  have hmax : max (-1 : Int) (-1) = -1 := by norm_num
  rw [hmax]
  have hcond : ¬ (2 * (-1 : Int) > cs) := by omega
  simp only [if_neg hcond, ite_self]

/-- Unfolding of the chunking loop at positive fuel. -/
lemma chunkTextAux_succ (t : List Char) (cs ov : Int) (fuel : Nat) (s : Int) :
    chunkTextAux t cs ov (fuel + 1) s =
      if s < (t.length : Int) then
        (chunkTextAux t cs ov fuel (chunkStep t cs ov s).2).map
          ((chunkStep t cs ov s).1 :: ·)
      else some [] := rfl

/-- Loop exit: once `start` has reached the end of the text the loop
returns (the empty tail of) the chunk list. -/
lemma chunkTextAux_stop {t : List Char} {cs ov s : Int} (fuel : Nat)
    (hs : ¬ s < (t.length : Int)) :
    chunkTextAux t cs ov (fuel + 1) s = some [] := by
  rw [chunkTextAux_succ, if_neg hs]

/-- One loop iteration on boundary-free text, in loop form. -/
lemma chunkTextAux_nb_step {t : List Char} {cs ov s : Int} (fuel : Nat)
    (hnb : ∀ x ∈ t, x ≠ '.' ∧ x ≠ '\n') (hcs : 0 ≤ cs)
    (hs : s < (t.length : Int)) :
    chunkTextAux t cs ov (fuel + 1) s =
      (chunkTextAux t cs ov fuel (s + cs - ov)).map
        (pyStrip (pySlice t s (s + cs)) :: ·) := by
  rw [chunkTextAux_succ, if_pos hs, chunkStep_no_boundary hnb hcs]

/-- Progress: when `2*overlap ≤ chunk_size` (and `chunk_size > 0`,
`overlap ≥ 0`), every loop iteration strictly increases `start`,
whichever branch the sentence-boundary heuristic takes. -/
lemma chunkStep_start_lt {t : List Char} {cs ov : Int}
    (hcs : 0 < cs) (h2 : 2 * ov ≤ cs) (s : Int) :
    s < (chunkStep t cs ov s).2 := by
  unfold chunkStep
  dsimp only
  split
  · split
    · next hbp => dsimp only; omega
    · dsimp only; omega
  · dsimp only; omega

/-- Termination of the chunking loop under `2*overlap ≤ chunk_size`:
with more fuel than remaining characters the loop finishes. -/
lemma chunkTextAux_isSome {t : List Char} {cs ov : Int}
    (hcs : 0 < cs) (h2 : 2 * ov ≤ cs) :
    ∀ fuel : Nat, ∀ s : Int, ((t.length : Int) - s).toNat < fuel →
      (chunkTextAux t cs ov fuel s).isSome := by
  intro fuel
  induction fuel with
  | zero => intro s h; omega
  | succ f ih =>
    intro s h
    by_cases hs : s < (t.length : Int)
    · have hstep := chunkStep_start_lt (t := t) hcs h2 s
      have hrec := ih (chunkStep t cs ov s).2 (by omega)
      rcases Option.isSome_iff_exists.mp hrec with ⟨l, hl⟩
      rw [chunkTextAux_succ, if_pos hs, hl]
      rfl
    · rw [chunkTextAux_stop f hs]
      rfl

/-- A 19-character text whose only sentence boundary sits just past the
midpoint of the first window: `chunk_text` with `chunk_size = 10`,
`overlap = 9` loops forever on it (the loop revisits `start = 0`). -/
def cycleText : List Char := "aaaaaa.zzzzzzzzzzzz".toList

lemma chunkStep_cycleText_zero : (chunkStep cycleText 10 9 0).2 = -2 := by decide

lemma chunkStep_cycleText_neg_two : (chunkStep cycleText 10 9 (-2)).2 = -1 := by decide

lemma chunkStep_cycleText_neg_one : (chunkStep cycleText 10 9 (-1)).2 = 0 := by decide

/-- The chunking loop on `cycleText` with `chunk_size = 10, overlap = 9`
cycles through starts `0 → -2 → -1 → 0 → ...` and never exits: no
amount of fuel completes it (genuine non-termination of the source loop). -/
lemma chunkTextAux_cycleText_none :
    ∀ fuel : Nat, ∀ s : Int, (s = 0 ∨ s = -2 ∨ s = -1) →
      chunkTextAux cycleText 10 9 fuel s = none := by
  intro fuel
  induction fuel with
  | zero => intro s _; rfl
  | succ f ih =>
    intro s hs
    have hlt : ∀ u : Int, (u = 0 ∨ u = -2 ∨ u = -1) → u < (cycleText.length : Int) := by
      intro u hu; rcases hu with h | h | h <;> subst h <;> decide
    rcases hs with h | h | h <;> subst h <;>
      rw [chunkTextAux_succ, if_pos (hlt _ (by simp))]
    · rw [chunkStep_cycleText_zero, ih (-2) (by simp)]; rfl
    · rw [chunkStep_cycleText_neg_two, ih (-1) (by simp)]; rfl
    · rw [chunkStep_cycleText_neg_one, ih 0 (by simp)]; rfl

/-- **C3, counterexample.** The claim quantifies over *every* pair with
`overlap < chunk_size`.  With `chunk_size = 10`, `overlap = 9`
(`9 < 10`) on `cycleText`, the very first iteration (from `start = 0`,
strictly inside the text) moves `start` *backwards* to `-2`: the loop's
start position does not strictly increase, and indeed `chunk_text`
exhausts its fuel without finishing. -/
theorem C3_counterexample_start_decreases :
    (9 : Int) < 10 ∧ (0 : Int) < (cycleText.length : Int) ∧
      (chunkStep cycleText 10 9 0).2 < 0 ∧
      chunk_text cycleText 10 9 = none := by
  refine ⟨by norm_num, by decide, by decide, ?_⟩
  exact chunkTextAux_cycleText_none (cycleText.length + 1) 0 (Or.inl rfl)

/-- **C3, amended.** Under the stronger precondition `2*overlap ≤
chunk_size` (satisfied by the configured defaults 1000/200, and forced
by the counterexample above), `chunk_text` terminates — the fueled loop
finishes within `len(text) + 1` iterations — and every iteration
strictly increases the loop's start position. -/
theorem C3_chunk_text_terminates (t : List Char) (chunk_size overlap : Int)
    (hcs : 0 < chunk_size) (h2 : 2 * overlap ≤ chunk_size) :
    (chunk_text t chunk_size overlap).isSome ∧
      ∀ start : Int, start < (chunkStep t chunk_size overlap start).2 := by
  constructor
  · exact chunkTextAux_isSome hcs h2 (t.length + 1) 0 (by omega)
  · exact chunkStep_start_lt hcs h2

/-- Witness for C3: the amended theorem applied at a concrete input. -/
theorem C3_chunk_text_terminates_witness :
    (0 : Int) < 10 ∧ 2 * 2 ≤ (10 : Int) ∧
      (chunk_text ("hello world".toList) 10 2).isSome ∧
      (0 : Int) < (chunkStep ("hello world".toList) 10 2 0).2 :=
  ⟨by norm_num, by norm_num,
    (C3_chunk_text_terminates ("hello world".toList) 10 2 (by norm_num) (by norm_num)).1,
    (C3_chunk_text_terminates ("hello world".toList) 10 2 (by norm_num) (by norm_num)).2 0⟩

/-- On a boundary-free 2500-character text, the loop with the configured
1000/200 parameters runs exactly four iterations, with starts
0, 800, 1600, 2400 — the third chunk already reaches the end of the
text, but `start = 2600 - 200 = 2400 < 2500` admits one further
(fully overlapped) trailing chunk. -/
lemma chunk_text_2500 {t : List Char} (hlen : t.length = 2500)
    (hnb : ∀ x ∈ t, x ≠ '.' ∧ x ≠ '\n') :
    chunk_text t 1000 200 =
      some [pyStrip (pySlice t 0 1000), pyStrip (pySlice t 800 1800),
            pyStrip (pySlice t 1600 2600), pyStrip (pySlice t 2400 3400)] := by
  have hn : (t.length : Int) = 2500 := by exact_mod_cast hlen
  unfold chunk_text
  rw [hlen]
  rw [chunkTextAux_nb_step 2500 hnb (by norm_num) (by rw [hn]; norm_num)]
  rw [show (2500 : Nat) = 2499 + 1 from rfl,
    chunkTextAux_nb_step 2499 hnb (by norm_num) (by rw [hn]; norm_num)]
  rw [show (2499 : Nat) = 2498 + 1 from rfl,
    chunkTextAux_nb_step 2498 hnb (by norm_num) (by rw [hn]; norm_num)]
  rw [show (2498 : Nat) = 2497 + 1 from rfl,
    chunkTextAux_nb_step 2497 hnb (by norm_num) (by rw [hn]; norm_num)]
  rw [show (2497 : Nat) = 2496 + 1 from rfl,
    chunkTextAux_stop 2496 (by rw [hn]; norm_num)]
  norm_num

/-- **C4, counterexample.** Chunking a 2500-character document (2500
copies of `'a'`) with `chunk_size = 1000`, `overlap = 200` produces 4
chunks, not the 3 the claim states. -/
theorem C4_counterexample_four_chunks :
    (chunk_text (List.replicate 2500 'a') 1000 200).map List.length = some 4 ∧
      (4 : Nat) ≠ 3 := by
  constructor
  · rw [chunk_text_2500 (by rw [List.length_replicate])
      (fun x hx => by
        have hx' := List.eq_of_mem_replicate hx
        subst hx'
        exact ⟨by decide, by decide⟩)]
    rfl
  · decide

/-- **C4, amended.** Chunking a 2500-character document that contains no
sentence boundary (`'.'` or `'\n'`) with `chunk_size = 1000`,
`overlap = 200` produces exactly 4 chunks, and the metadata built by
`add_transcript` for them carries `chunk_index` 0,1,2,3 and
`total_chunks = 4` on every chunk. -/
theorem C4_chunk_2500_gives_four_chunks (t : List Char) (source : String)
    (hlen : t.length = 2500) (hnb : ∀ x ∈ t, x ≠ '.' ∧ x ≠ '\n') :
    (chunk_text t 1000 200).map List.length = some 4 ∧
      (chunkMetadatas source 4).map ChunkMeta.chunk_index = [0, 1, 2, 3] ∧
      ∀ m ∈ chunkMetadatas source 4, m.total_chunks = 4 := by
  refine ⟨?_, rfl, ?_⟩
  · rw [chunk_text_2500 hlen hnb]; rfl
  · intro m hm
    simp only [chunkMetadatas, List.mem_map, List.mem_range] at hm
    obtain ⟨i, _, hi⟩ := hm
    rw [← hi]

/-- Witness for C4: the amended theorem applied at the concrete
2500-character document. -/
theorem C4_chunk_2500_gives_four_chunks_witness :
    (List.replicate 2500 'a').length = 2500 ∧
      (chunk_text (List.replicate 2500 'a') 1000 200).map List.length = some 4 ∧
      (chunkMetadatas "doc1" 4).map ChunkMeta.chunk_index = [0, 1, 2, 3] :=
  ⟨by rw [List.length_replicate],
    (C4_chunk_2500_gives_four_chunks (List.replicate 2500 'a') "doc1" (by rw [List.length_replicate])
      (fun x hx => by
        have hx' := List.eq_of_mem_replicate hx
        subst hx'
        exact ⟨by decide, by decide⟩)).1,
    (C4_chunk_2500_gives_four_chunks (List.replicate 2500 'a') "doc1" (by rw [List.length_replicate])
      (fun x hx => by
        have hx' := List.eq_of_mem_replicate hx
        subst hx'
        exact ⟨by decide, by decide⟩)).2.1⟩

/-! ## Index (`VectorStore` over a ChromaDB collection)

The vector store itself (ChromaDB) is an external dependency, not code of
this repository; its observable semantics are modelled from the spec:
insertion does not overwrite existing ids, `count` is the number of
stored entries, and `query` ranks the entries that satisfy the metadata
where-filter by the store-internal embedding distance (abstracted here
as a caller-supplied function `dist` of the stored document text) and
returns the best `n_results` of them. -/

/-- One persisted index entry: `(chunk_id, document text, metadata)`.
The embedding vector is internal to the store and never observed by the
repository code, so it is not part of the entry. -/
structure IndexEntry where
  id : String
  document : List Char
  metadata : ChunkMeta
deriving DecidableEq, Repr

/-- Modelled from the spec: ChromaDB `collection.add` — ids that already
exist in the collection keep their stored entry (no overwrite-by-id);
entries with fresh ids are appended. -/
def collectionAdd (c new : List IndexEntry) : List IndexEntry :=
  c ++ new.filter (fun e => !(c.any (fun e' => e'.id == e.id)))

/-- `collection.count()`. -/
def collectionCount (c : List IndexEntry) : Nat := c.length

/-- The where clause built by `search_filtered` (vector_store.py lines
199-204): `{"$or": [{"source": {"$eq": str(s)}} for s in source_files]}`,
evaluated on an entry's metadata. -/
def whereOrSourceEq (source_files : List String) (m : ChunkMeta) : Bool :=
  source_files.any (fun s => m.source = s)

/-- Ascending ranking of entries by embedding distance to the query. -/
def rankBy (dist : List Char → Int) (c : List IndexEntry) : List IndexEntry :=
  List.insertionSort (fun e1 e2 => dist e1.document ≤ dist e2.document) c

/-- Modelled from the spec: ChromaDB `collection.query` — the entries
satisfying the where-filter (all entries when no filter is given) are
ranked by distance and the best `n_results` are returned. -/
def collectionQuery (dist : List Char → Int) (c : List IndexEntry)
    (n_results : Nat) (whereClause : Option (List String)) : List IndexEntry :=
  let pool := match whereClause with
    | none => c
    | some srcs => c.filter (fun e => whereOrSourceEq srcs e.metadata)
  (rankBy dist pool).take n_results

/-- Python `x or default` on an optional nonnegative count: `None` and
`0` are both falsy and fall back to the default. -/
def pyOrNat (v : Option Nat) (d : Nat) : Nat :=
  match v with
  | none => d
  | some m => if m = 0 then d else m

/-- `VectorStore.add_transcript` (lines 83-133): chunk the transcript
text with the configured parameters, build ids
`{stem}_chunk_{i}` and metadata `{'source': source, 'chunk_index': i,
'total_chunks': n}`, add everything to the collection, and return the
number of chunks produced.  (The `none` branch of `chunk_text` is
unreachable under the configured 1000/200 parameters, see
`C3_chunk_text_terminates`.) -/
def add_transcript (c : List IndexEntry) (stem source : String)
    (text : List Char) : List IndexEntry × Nat :=
  match chunk_text text CHUNK_SIZE CHUNK_OVERLAP with
  | none => (c, 0)
  | some chunks =>
    let n := chunks.length
    let entries := List.zipWith
      (fun (i : Nat) (doc : List Char) =>
        ({ id := stem ++ "_chunk_" ++ toString i, document := doc,
           metadata := ⟨source, i, n⟩ } : IndexEntry))
      (List.range n) chunks
    (collectionAdd c entries, n)

/-- One formatted search result (vector_store.py lines 212-220):
`{'text': doc, 'metadata': ..., 'distance': ...}`. -/
structure SearchResult where
  text : List Char
  metadata : ChunkMeta
  distance : Int
deriving DecidableEq, Repr

/-- `VectorStore.search_filtered` (lines 184-223): resolve `n_results`
with Python `or`, build the `$or`-of-`$eq` where clause only when
`source_files` is truthy (non-empty), query the collection, and format
the returned entries in rank order. -/
def search_filtered (c : List IndexEntry) (dist : List Char → Int)
    (source_files : List String) (n_results : Option Nat) : List SearchResult :=
  let k := pyOrNat n_results TOP_K_RESULTS
  let whereClause : Option (List String) :=
    if source_files.isEmpty then none else some source_files
  (collectionQuery dist c k whereClause).map
    (fun e => ⟨e.document, e.metadata, dist e.document⟩)

/-- Python `Path(name).stem` for the final path component `name`:
strip everything up to the last `'/'`, then drop the last suffix if the
last `'.'` is neither the first nor the last character of the name. -/
def pathStemList (l : List Char) : List Char :=
  let islash := rfind '/' l
  let name := if islash ≥ 0 then l.drop (islash + 1).toNat else l
  let i := rfind '.' name
  if 0 < i ∧ i < (name.length : Int) - 1 then name.take i.toNat else name

/-- The sentinel returned by `get_context` when retrieval yields nothing. -/
def noRelevantInfo : List Char :=
  "No relevant information found in the transcripts.".toList

/-- One provenance block of the context string (vector_store.py line
246): `f"[Source {i}: {source_name}]\n{result['text']}\n"`. -/
def contextPart (i : Nat) (r : SearchResult) : List Char :=
  let source := r.metadata.source
  let source_name :=
    if source = "Unknown" then "Unknown".toList else pathStemList source.toList
  "[Source ".toList ++ (toString i).toList ++ ": ".toList ++ source_name ++
    "]\n".toList ++ r.text ++ "\n".toList

/-- The provenance blocks for the ranked results, numbered from 1
(`enumerate(results, 1)`). -/
def contextParts : Nat → List SearchResult → List (List Char)
  | _, [] => []
  | i, r :: rest => contextPart i r :: contextParts (i + 1) rest

/-- Python `sep.join(parts)`. -/
def joinSep (sep : List Char) : List (List Char) → List Char
  | [] => []
  | [x] => x
  | x :: y :: ys => x ++ sep ++ joinSep sep (y :: ys)

/-- `VectorStore.get_context` (lines 225-248): run the filtered search
and either return the sentinel (no results) or the newline-joined
provenance blocks in rank order. -/
def get_context (c : List IndexEntry) (dist : List Char → Int)
    (n_results : Option Nat) (source_files : List String) : List Char :=
  let results := search_filtered c dist source_files n_results
  if results.isEmpty then noRelevantInfo
  else joinSep "\n".toList (contextParts 1 results)

/-! ## C1: re-indexing does not evict stale chunks -/

/-- Adding to an empty collection inserts every entry. -/
lemma collectionAdd_nil (new : List IndexEntry) : collectionAdd [] new = new := by
  simp [collectionAdd]

/-- Adding entries whose ids all already exist changes nothing. -/
lemma collectionAdd_all_dup {c new : List IndexEntry}
    (h : ∀ e ∈ new, ∃ e' ∈ c, e'.id = e.id) : collectionAdd c new = c := by
  unfold collectionAdd
  have hf : new.filter (fun e => !(c.any (fun e' => e'.id == e.id))) = [] := by
    rw [List.filter_eq_nil_iff]
    intro e he
    obtain ⟨e', he', hid⟩ := h e he
    simp only [Bool.not_eq_true', Bool.not_eq_false, List.any_eq_true]
    exact ⟨e', he', by simp [hid]⟩
  rw [hf, List.append_nil]

/-- Reduction of `add_transcript` once the chunk list is known. -/
lemma add_transcript_eq_of_chunks {c : List IndexEntry} {stem source : String}
    {text : List Char} {chunks : List (List Char)}
    (h : chunk_text text CHUNK_SIZE CHUNK_OVERLAP = some chunks) :
    add_transcript c stem source text =
      (collectionAdd c (List.zipWith
        (fun (i : Nat) (doc : List Char) =>
          ({ id := stem ++ "_chunk_" ++ toString i, document := doc,
             metadata := ⟨source, i, chunks.length⟩ } : IndexEntry))
        (List.range chunks.length) chunks), chunks.length) := by
  unfold add_transcript
  rw [h]

/-- The chunking loop on a boundary-free 1700-character text with the
configured 1000/200 parameters: three windows, starting at 0, 800, 1600. -/
lemma chunk_text_1700 {t : List Char} (hlen : t.length = 1700)
    (hnb : ∀ x ∈ t, x ≠ '.' ∧ x ≠ '\n') :
    chunk_text t 1000 200 =
      some [pyStrip (pySlice t 0 1000), pyStrip (pySlice t 800 1800),
            pyStrip (pySlice t 1600 2600)] := by
  have hn : (t.length : Int) = 1700 := by exact_mod_cast hlen
  unfold chunk_text
  rw [hlen]
  rw [chunkTextAux_nb_step 1700 hnb (by norm_num) (by rw [hn]; norm_num)]
  rw [show (1700 : Nat) = 1699 + 1 from rfl,
    chunkTextAux_nb_step 1699 hnb (by norm_num) (by rw [hn]; norm_num)]
  rw [show (1699 : Nat) = 1698 + 1 from rfl,
    chunkTextAux_nb_step 1698 hnb (by norm_num) (by rw [hn]; norm_num)]
  rw [show (1698 : Nat) = 1697 + 1 from rfl,
    chunkTextAux_stop 1697 (by rw [hn]; norm_num)]
  norm_num

/-- The chunking loop on a boundary-free 1000-character text with the
configured 1000/200 parameters: two windows, starting at 0 and 800
(the first window already covers the whole text, but
`start = 1000 - 200 = 800 < 1000` admits a trailing chunk). -/
lemma chunk_text_1000 {t : List Char} (hlen : t.length = 1000)
    (hnb : ∀ x ∈ t, x ≠ '.' ∧ x ≠ '\n') :
    chunk_text t 1000 200 =
      some [pyStrip (pySlice t 0 1000), pyStrip (pySlice t 800 1800)] := by
  have hn : (t.length : Int) = 1000 := by exact_mod_cast hlen
  unfold chunk_text
  rw [hlen]
  rw [chunkTextAux_nb_step 1000 hnb (by norm_num) (by rw [hn]; norm_num)]
  rw [show (1000 : Nat) = 999 + 1 from rfl,
    chunkTextAux_nb_step 999 hnb (by norm_num) (by rw [hn]; norm_num)]
  rw [show (999 : Nat) = 998 + 1 from rfl,
    chunkTextAux_stop 998 (by rw [hn]; norm_num)]
  norm_num

/-- First indexing run for the C1 scenario: a 1700-character document
(3 chunks) indexed into an empty collection. -/
def reindexDemo1 : List IndexEntry :=
  (add_transcript [] "doc1" "transcripts/doc1.txt" (List.replicate 1700 'a')).1

/-- Second indexing run for the C1 scenario: the same document
re-indexed with different, shorter content (2 chunks). -/
def reindexDemo2 : List IndexEntry :=
  (add_transcript reindexDemo1 "doc1" "transcripts/doc1.txt"
    (List.replicate 1000 'b')).1

lemma replicate_nb (n : Nat) (ch : Char) (h1 : ch ≠ '.') (h2 : ch ≠ '\n') :
    ∀ x ∈ List.replicate n ch, x ≠ '.' ∧ x ≠ '\n' := by
  intro x hx
  have hx' := List.eq_of_mem_replicate hx
  subst hx'
  exact ⟨h1, h2⟩

/-- First run, evaluated: three entries with ids `doc1_chunk_0..2`. -/
lemma reindexDemo1_eq :
    reindexDemo1 =
      [⟨"doc1" ++ "_chunk_" ++ toString 0,
          pyStrip (pySlice (List.replicate 1700 'a') 0 1000), ⟨"transcripts/doc1.txt", 0, 3⟩⟩,
       ⟨"doc1" ++ "_chunk_" ++ toString 1,
          pyStrip (pySlice (List.replicate 1700 'a') 800 1800), ⟨"transcripts/doc1.txt", 1, 3⟩⟩,
       ⟨"doc1" ++ "_chunk_" ++ toString 2,
          pyStrip (pySlice (List.replicate 1700 'a') 1600 2600), ⟨"transcripts/doc1.txt", 2, 3⟩⟩] := by
  unfold reindexDemo1
  rw [add_transcript_eq_of_chunks
    (chunk_text_1700 (by rw [List.length_replicate]) (replicate_nb _ _ (by decide) (by decide)))]
  rw [collectionAdd_nil]
  rfl

/-- The length-2 chunk count of the second run. -/
lemma add_transcript_second_count :
    (add_transcript reindexDemo1 "doc1" "transcripts/doc1.txt"
      (List.replicate 1000 'b')).2 = 2 := by
  rw [add_transcript_eq_of_chunks
    (chunk_text_1000 (by rw [List.length_replicate]) (replicate_nb _ _ (by decide) (by decide)))]
  rfl

/-- Second run, evaluated: both new ids already exist, so *nothing* is
inserted or replaced — the three stale chunks of the first run survive. -/
lemma reindexDemo2_eq : reindexDemo2 = reindexDemo1 := by
  unfold reindexDemo2
  rw [add_transcript_eq_of_chunks
    (chunk_text_1000 (by rw [List.length_replicate]) (replicate_nb _ _ (by decide) (by decide)))]
  refine collectionAdd_all_dup ?_
  intro e he
  rw [reindexDemo1_eq]
  rw [show List.zipWith
      (fun (i : Nat) (doc : List Char) =>
        ({ id := "doc1" ++ "_chunk_" ++ toString i, document := doc,
           metadata := ⟨"transcripts/doc1.txt", i,
             [pyStrip (pySlice (List.replicate 1000 'b') 0 1000),
              pyStrip (pySlice (List.replicate 1000 'b') 800 1800)].length⟩ } : IndexEntry))
      (List.range [pyStrip (pySlice (List.replicate 1000 'b') 0 1000),
        pyStrip (pySlice (List.replicate 1000 'b') 800 1800)].length)
      [pyStrip (pySlice (List.replicate 1000 'b') 0 1000),
       pyStrip (pySlice (List.replicate 1000 'b') 800 1800)] =
      [⟨"doc1" ++ "_chunk_" ++ toString 0,
          pyStrip (pySlice (List.replicate 1000 'b') 0 1000), ⟨"transcripts/doc1.txt", 0, 2⟩⟩,
       ⟨"doc1" ++ "_chunk_" ++ toString 1,
          pyStrip (pySlice (List.replicate 1000 'b') 800 1800), ⟨"transcripts/doc1.txt", 1, 2⟩⟩]
    from rfl] at he
  simp only [List.mem_cons, List.not_mem_nil, or_false] at he
  rcases he with h | h <;> subst h
  · exact ⟨_, List.mem_cons_self _ _, rfl⟩
  · exact ⟨_, List.mem_cons_of_mem _ (List.mem_cons_self _ _), rfl⟩

/-- **C1, evaluated at the failing input.**  Indexing a 1700-character
document (3 chunks), then re-indexing it with different 1000-character
content (2 chunks): `add_transcript` removes nothing — the collection
still holds the three stale first-run chunks (including `chunk_index 2`)
and none of the new content, so `count()` is 3, not the new chunk
count 2. -/
theorem C1_reindex_keeps_stale_chunks :
    (add_transcript [] "doc1" "transcripts/doc1.txt" (List.replicate 1700 'a')).2 = 3 ∧
    (add_transcript reindexDemo1 "doc1" "transcripts/doc1.txt"
      (List.replicate 1000 'b')).2 = 2 ∧
    reindexDemo2 = reindexDemo1 ∧
    collectionCount reindexDemo2 = 3 ∧
    (3 : Nat) ≠ 2 := by
  refine ⟨?_, add_transcript_second_count, reindexDemo2_eq, ?_, by decide⟩
  · rw [add_transcript_eq_of_chunks
      (chunk_text_1700 (by rw [List.length_replicate]) (replicate_nb _ _ (by decide) (by decide)))]
    rfl
  · rw [collectionCount, reindexDemo2_eq, reindexDemo1_eq]
    rfl

/-! ## C2: filtered search is a pre-filter returning the best k -/

/-- Ranking is a permutation of the pool. -/
lemma rankBy_perm (dist : List Char → Int) (c : List IndexEntry) :
    (rankBy dist c).Perm c :=
  List.perm_insertionSort _ c

/-- Ranking sorts the pool by ascending distance. -/
lemma rankBy_sorted (dist : List Char → Int) (c : List IndexEntry) :
    (rankBy dist c).Pairwise (fun e1 e2 => dist e1.document ≤ dist e2.document) := by
  haveI : IsTotal IndexEntry (fun e1 e2 => dist e1.document ≤ dist e2.document) :=
    ⟨fun _ _ => le_total _ _⟩
  haveI : IsTrans IndexEntry (fun e1 e2 => dist e1.document ≤ dist e2.document) :=
    ⟨fun _ _ _ hab hbc => le_trans hab hbc⟩
  exact List.sorted_insertionSort _ c

/-- **C2.** With a non-empty `source_files` filter, `search_filtered`
(i) only returns results whose `source` metadata is one of the given
identifiers, and (ii) acts as a pre-filter: the results are the first
`k` of a distance-sorted permutation of the *filtered subset* of the
collection — `min k |filtered|` results, not "best k overall, filtered
down afterwards". -/
theorem C2_search_filtered_prefilter (c : List IndexEntry)
    (dist : List Char → Int) (source_files : List String)
    (n_results : Option Nat) (h : source_files ≠ []) :
    (∀ r ∈ search_filtered c dist source_files n_results,
        ∃ s ∈ source_files, r.metadata.source = s) ∧
    (search_filtered c dist source_files n_results).length =
      min (pyOrNat n_results TOP_K_RESULTS)
        (c.filter (fun e => whereOrSourceEq source_files e.metadata)).length ∧
    ∃ ranked,
      (c.filter (fun e => whereOrSourceEq source_files e.metadata)).Perm ranked ∧
      ranked.Pairwise (fun e1 e2 => dist e1.document ≤ dist e2.document) ∧
      search_filtered c dist source_files n_results =
        (ranked.take (pyOrNat n_results TOP_K_RESULTS)).map
          (fun e => ⟨e.document, e.metadata, dist e.document⟩) := by
  have hne : source_files.isEmpty = false := by
    cases source_files with
    | nil => exact absurd rfl h
    | cons a l => rfl
  have hsf : search_filtered c dist source_files n_results =
      ((rankBy dist (c.filter fun e => whereOrSourceEq source_files e.metadata)).take
        (pyOrNat n_results TOP_K_RESULTS)).map
        (fun e => ⟨e.document, e.metadata, dist e.document⟩) := by
    unfold search_filtered collectionQuery
    rw [hne]
    rfl
  refine ⟨?_, ?_, rankBy dist (c.filter fun e => whereOrSourceEq source_files e.metadata),
    (rankBy_perm _ _).symm, rankBy_sorted _ _, hsf⟩
  · intro r hr
    rw [hsf] at hr
    obtain ⟨e, he, rfl⟩ := List.mem_map.mp hr
    have he2 : e ∈ rankBy dist (c.filter fun e => whereOrSourceEq source_files e.metadata) :=
      List.mem_of_mem_take he
    have he3 := (rankBy_perm dist _).mem_iff.mp he2
    have hw := (List.mem_filter.mp he3).2
    unfold whereOrSourceEq at hw
    rw [List.any_eq_true] at hw
    obtain ⟨s, hs, heq⟩ := hw
    exact ⟨s, hs, of_decide_eq_true heq⟩
  · rw [hsf, List.length_map, List.length_take, (rankBy_perm dist _).length_eq]

/-- Witness for C2: a two-entry collection, filter on one source. -/
theorem C2_search_filtered_prefilter_witness :
    (["a.txt"] : List String) ≠ [] ∧
    (search_filtered
        [⟨"a_chunk_0", ['x'], ⟨"a.txt", 0, 1⟩⟩, ⟨"b_chunk_0", ['y'], ⟨"b.txt", 0, 1⟩⟩]
        (fun _ => 0) ["a.txt"] none).length =
      min (pyOrNat none TOP_K_RESULTS)
        (([⟨"a_chunk_0", ['x'], ⟨"a.txt", 0, 1⟩⟩,
           ⟨"b_chunk_0", ['y'], ⟨"b.txt", 0, 1⟩⟩] : List IndexEntry).filter
          (fun e => whereOrSourceEq ["a.txt"] e.metadata)).length :=
  ⟨by decide,
    (C2_search_filtered_prefilter
      [⟨"a_chunk_0", ['x'], ⟨"a.txt", 0, 1⟩⟩, ⟨"b_chunk_0", ['y'], ⟨"b.txt", 0, 1⟩⟩]
      (fun _ => 0) ["a.txt"] none (by decide)).2.1⟩

/-! ## C6: the sentinel context string -/

/-- Every provenance block starts with `'['`. -/
lemma contextPart_head (i : Nat) (r : SearchResult) :
    ∃ u, contextPart i r = '[' :: u :=
  ⟨_, rfl⟩

/-- `sep.join` of a non-empty list starts with its first part. -/
lemma joinSep_cons (sep x : List Char) (xs : List (List Char)) :
    ∃ u, joinSep sep (x :: xs) = x ++ u := by
  cases xs with
  | nil => exact ⟨[], (List.append_nil x).symm⟩
  | cons y ys =>
    exact ⟨sep ++ joinSep sep (y :: ys), by rw [joinSep, List.append_assoc]⟩

/-- A rendered non-empty context never equals the sentinel: it starts
with `'['`, the sentinel with `'N'`. -/
lemma joinSep_contextParts_ne (r : SearchResult) (rest : List SearchResult) :
    joinSep "\n".toList (contextParts 1 (r :: rest)) ≠ noRelevantInfo := by
  obtain ⟨u1, h1⟩ := contextPart_head 1 r
  obtain ⟨u2, h2⟩ := joinSep_cons "\n".toList (contextPart 1 r) (contextParts 2 rest)
  intro heq
  rw [show contextParts 1 (r :: rest) = contextPart 1 r :: contextParts 2 rest from rfl,
    h2, h1, List.cons_append] at heq
  have hh := congrArg List.head? heq
  rw [List.head?_cons, show noRelevantInfo.head? = some 'N' from rfl] at hh
  exact absurd (Option.some.inj hh) (by decide)

/-- **C6.** `get_context` returns the sentinel "No relevant information
found in the transcripts." exactly when the underlying filtered search
returns no results; otherwise it returns the retrieved chunks joined in
ranked order, each under its `[Source N: name]` provenance header. -/
theorem C6_get_context_sentinel (c : List IndexEntry) (dist : List Char → Int)
    (n_results : Option Nat) (source_files : List String) :
    (get_context c dist n_results source_files = noRelevantInfo ↔
      search_filtered c dist source_files n_results = []) ∧
    (search_filtered c dist source_files n_results ≠ [] →
      get_context c dist n_results source_files =
        joinSep "\n".toList
          (contextParts 1 (search_filtered c dist source_files n_results))) := by
  by_cases hres : search_filtered c dist source_files n_results = []
  · have hg : get_context c dist n_results source_files = noRelevantInfo := by
      unfold get_context
      rw [hres]
      rfl
    exact ⟨⟨fun _ => hres, fun _ => hg⟩, fun hn => absurd hres hn⟩
  · obtain ⟨r, rest, hcons⟩ := List.exists_cons_of_ne_nil hres
    have hg : get_context c dist n_results source_files =
        joinSep "\n".toList
          (contextParts 1 (search_filtered c dist source_files n_results)) := by
      unfold get_context
      rw [hcons]
      rfl
    refine ⟨⟨fun heq => ?_, fun h0 => absurd h0 hres⟩, fun _ => hg⟩
    rw [hg, hcons] at heq
    exact absurd heq (joinSep_contextParts_ne r rest)

/-- Witness for C6: a singleton collection with no source filter yields
one result, rendered with its provenance header. -/
theorem C6_get_context_sentinel_witness :
    search_filtered [⟨"a_chunk_0", ['x'], ⟨"transcripts/a.txt", 0, 1⟩⟩]
        (fun _ => 0) [] none ≠ [] ∧
    get_context [⟨"a_chunk_0", ['x'], ⟨"transcripts/a.txt", 0, 1⟩⟩]
        (fun _ => 0) none [] =
      joinSep "\n".toList
        (contextParts 1 (search_filtered [⟨"a_chunk_0", ['x'], ⟨"transcripts/a.txt", 0, 1⟩⟩]
          (fun _ => 0) [] none)) :=
  ⟨by decide,
    (C6_get_context_sentinel [⟨"a_chunk_0", ['x'], ⟨"transcripts/a.txt", 0, 1⟩⟩]
      (fun _ => 0) none []).2 (by decide)⟩

/-! ## Session data model (`ChatEngine` session management)

A conversation turn as appended by `ask` (chat_engine.py lines 119-124)
and the session record as serialized by `save_session` (lines 226-233).
Timestamps are opaque ISO-8601 strings (produced by `datetime`, an
external collaborator). -/

/-- One source citation of a turn: `{'source': ..., 'chunk_index': ...}`. -/
structure SourceCite where
  source : String
  chunk_index : Nat
deriving DecidableEq, Repr

/-- One conversation turn: `{'question': ..., 'response': ..., 'sources': ...}`. -/
structure Turn where
  question : String
  response : String
  sources : List SourceCite
deriving DecidableEq, Repr

/-- The persisted session record, fields in the order `save_session`
writes them. -/
structure Session where
  session_id : String
  session_name : String
  start_time : String
  last_updated : String
  message_count : Nat
  conversation : List Turn
deriving DecidableEq, Repr

/-! ## JSON serialization (`json.dump(session_data, f, indent=2, ensure_ascii=False)`)

The serializer below mirrors Python's `json.dump` with `indent=2` and
`ensure_ascii=False` on the session record: two-space indentation, `": "`
key separator, `","` item separator followed by a newline and the item
indent, `'"'`/`'\'` and control characters escaped (short forms
`\b \t \n \f \r`, otherwise `\u00xx` with lowercase hex), all other
characters written verbatim.  All numbers in the record are nonnegative
integers (`message_count` is a length, `chunk_index` an index). -/

/-- Lowercase hex digit, as in Python's `'\\u{0:04x}'.format(...)`. -/
def hexDigit (n : Nat) : Char :=
  if n < 10 then Char.ofNat ('0'.toNat + n) else Char.ofNat ('a'.toNat + (n - 10))

/-- JSON escaping of one character (`ensure_ascii=False`). -/
def escapeChar (c : Char) : List Char :=
  if c = '"' then ['\\', '"']
  else if c = '\\' then ['\\', '\\']
  else if c = '\n' then ['\\', 'n']
  else if c = '\t' then ['\\', 't']
  else if c = '\r' then ['\\', 'r']
  else if c = '\x08' then ['\\', 'b']
  else if c = '\x0c' then ['\\', 'f']
  else if c.toNat < 0x20 then
    ['\\', 'u', '0', '0', hexDigit (c.toNat / 16), hexDigit (c.toNat % 16)]
  else [c]

/-- A JSON string literal: quote, escaped characters, quote. -/
def dumpString (s : String) : List Char :=
  '"' :: (s.data.map escapeChar).flatten ++ ['"']

/-- Decimal digits of a nonnegative integer. -/
def natToChars (n : Nat) : List Char :=
  if n < 10 then [Nat.digitChar n]
  else natToChars (n / 10) ++ [Nat.digitChar (n % 10)]
termination_by n
decreasing_by exact Nat.div_lt_self (by omega) (by omega)

/-- `indent` spaces. -/
def ind (n : Nat) : List Char := List.replicate n ' '

/-- A source-citation object at depth `d`. -/
def dumpSourceCite (d : Nat) (sc : SourceCite) : List Char :=
  ['{', '\n'] ++ ind (d + 2) ++ dumpString "source" ++ [':', ' '] ++
    dumpString sc.source ++ [',', '\n'] ++ ind (d + 2) ++
    dumpString "chunk_index" ++ [':', ' '] ++ natToChars sc.chunk_index ++
    ['\n'] ++ ind d ++ ['}']

/-- The tail of a non-empty citation array: `("," item)* "]"`. -/
def dumpCitesRest (d : Nat) : List SourceCite → List Char
  | [] => ['\n'] ++ ind d ++ [']']
  | x :: xs => [',', '\n'] ++ ind (d + 2) ++ dumpSourceCite (d + 2) x ++
      dumpCitesRest d xs

/-- A citation array at depth `d` (`[]` when empty). -/
def dumpCites (d : Nat) : List SourceCite → List Char
  | [] => ['[', ']']
  | x :: xs => ['[', '\n'] ++ ind (d + 2) ++ dumpSourceCite (d + 2) x ++
      dumpCitesRest d xs

/-- A turn object at depth `d`. -/
def dumpTurn (d : Nat) (t : Turn) : List Char :=
  ['{', '\n'] ++ ind (d + 2) ++ dumpString "question" ++ [':', ' '] ++
    dumpString t.question ++ [',', '\n'] ++ ind (d + 2) ++
    dumpString "response" ++ [':', ' '] ++ dumpString t.response ++
    [',', '\n'] ++ ind (d + 2) ++ dumpString "sources" ++ [':', ' '] ++
    dumpCites (d + 2) t.sources ++ ['\n'] ++ ind d ++ ['}']

/-- The tail of a non-empty turn array. -/
def dumpTurnsRest (d : Nat) : List Turn → List Char
  | [] => ['\n'] ++ ind d ++ [']']
  | x :: xs => [',', '\n'] ++ ind (d + 2) ++ dumpTurn (d + 2) x ++
      dumpTurnsRest d xs

/-- A turn array at depth `d`. -/
def dumpTurns (d : Nat) : List Turn → List Char
  | [] => ['[', ']']
  | x :: xs => ['[', '\n'] ++ ind (d + 2) ++ dumpTurn (d + 2) x ++
      dumpTurnsRest d xs

/-- `json.dump(session_data, f, indent=2, ensure_ascii=False)`: the full
session record at depth 0, keys in `save_session`'s insertion order. -/
def dumpSession (s : Session) : List Char :=
  ['{', '\n'] ++ ind 2 ++ dumpString "session_id" ++ [':', ' '] ++
    dumpString s.session_id ++ [',', '\n'] ++ ind 2 ++
    dumpString "session_name" ++ [':', ' '] ++ dumpString s.session_name ++
    [',', '\n'] ++ ind 2 ++ dumpString "start_time" ++ [':', ' '] ++
    dumpString s.start_time ++ [',', '\n'] ++ ind 2 ++
    dumpString "last_updated" ++ [':', ' '] ++ dumpString s.last_updated ++
    [',', '\n'] ++ ind 2 ++ dumpString "message_count" ++ [':', ' '] ++
    natToChars s.message_count ++ [',', '\n'] ++ ind 2 ++
    dumpString "conversation" ++ [':', ' '] ++ dumpTurns 2 s.conversation ++
    ['\n', '}']

/-! ## JSON parsing (`json.load`)

A recursive-descent parser for the session record: it skips whitespace
between tokens, decodes string escapes (including `\u`), reads decimal
integers, and walks arrays element by element, so it accepts any
whitespace layout around the record's tokens, not just the serializer's.
List walking uses fuel bounded by the remaining input length (each
element consumes at least one character). -/

/-- JSON insignificant whitespace. -/
def isJsonWs (c : Char) : Bool :=
  c = ' ' || c = '\n' || c = '\t' || c = '\r'

/-- Skip insignificant whitespace. -/
def skipWs (l : List Char) : List Char := l.dropWhile isJsonWs

/-- Value of a hex digit. -/
def hexVal (c : Char) : Option Nat :=
  if '0' ≤ c ∧ c ≤ '9' then some (c.toNat - '0'.toNat)
  else if 'a' ≤ c ∧ c ≤ 'f' then some (c.toNat - 'a'.toNat + 10)
  else if 'A' ≤ c ∧ c ≤ 'F' then some (c.toNat - 'A'.toNat + 10)
  else none

/-- Short escape sequences. -/
def unescapeChar (e : Char) : Option Char :=
  if e = '"' then some '"'
  else if e = '\\' then some '\\'
  else if e = '/' then some '/'
  else if e = 'n' then some '\n'
  else if e = 't' then some '\t'
  else if e = 'r' then some '\r'
  else if e = 'b' then some '\x08'
  else if e = 'f' then some '\x0c'
  else none

/-- Parse the body of a string literal (after the opening quote) up to
the closing quote, decoding escapes. -/
def parseStringBody : List Char → Option (List Char × List Char)
  | [] => none
  | c :: rest =>
    if c = '"' then some ([], rest)
    else if c = '\\' then
      match rest with
      | [] => none
      | e :: rest2 =>
        if e = 'u' then
          match rest2 with
          | a :: b :: c2 :: d :: rest3 =>
            match hexVal a, hexVal b, hexVal c2, hexVal d with
            | some ha, some hb, some hc, some hd =>
              (parseStringBody rest3).map
                (fun p => (Char.ofNat (((ha * 16 + hb) * 16 + hc) * 16 + hd) :: p.1, p.2))
            | _, _, _, _ => none
          | _ => none
        else
          match unescapeChar e with
          | some u => (parseStringBody rest2).map (fun p => (u :: p.1, p.2))
          | none => none
    else (parseStringBody rest).map (fun p => (c :: p.1, p.2))

/-- Parse a string literal token. -/
def parseString (l : List Char) : Option (List Char × List Char) :=
  match skipWs l with
  | [] => none
  | c :: rest => if c = '"' then parseStringBody rest else none

/-- Expect one punctuation token. -/
def expectChar (ch : Char) (l : List Char) : Option (List Char) :=
  match skipWs l with
  | [] => none
  | c :: rest => if c = ch then some rest else none

/-- Parse a known object key followed by `':'`. -/
def parseKeyColon (key : String) (l : List Char) : Option (List Char) := do
  let (k, r1) ← parseString l
  if k = key.data then expectChar ':' r1 else none

/-- Parse a nonnegative decimal integer token. -/
def parseNatTok (l : List Char) : Option (Nat × List Char) :=
  let l' := skipWs l
  let ds := l'.takeWhile Char.isDigit
  if ds.isEmpty then none
  else some (ds.foldl (fun a c => 10 * a + (c.toNat - 48)) 0, l'.dropWhile Char.isDigit)

/-- Parse a known string-valued field followed by its `','` separator. -/
def parseStrFieldComma (key : String) (l : List Char) :
    Option (List Char × List Char) := do
  let r1 ← parseKeyColon key l
  let (v, r2) ← parseString r1
  let r3 ← expectChar ',' r2
  return (v, r3)

/-- Parse one source-citation object. -/
def parseSourceCite (l : List Char) : Option (SourceCite × List Char) := do
  let r1 ← expectChar '{' l
  let (src, r2) ← parseStrFieldComma "source" r1
  let r3 ← parseKeyColon "chunk_index" r2
  let (n, r4) ← parseNatTok r3
  let r5 ← expectChar '}' r4
  return (⟨⟨src⟩, n⟩, r5)

/-- Parse the `("," item)* "]"` tail of a citation array. -/
def parseCitesRest : Nat → List Char → Option (List SourceCite × List Char)
  | 0, _ => none
  | fuel + 1, l =>
    match skipWs l with
    | [] => none
    | c :: rest =>
      if c = ']' then some ([], rest)
      else if c = ',' then do
        let (x, r1) ← parseSourceCite rest
        let (xs, r2) ← parseCitesRest fuel r1
        return (x :: xs, r2)
      else none

/-- Parse a citation array. -/
def parseCitesArray (l : List Char) : Option (List SourceCite × List Char) :=
  match skipWs l with
  | [] => none
  | c :: rest =>
    if c = '[' then
      match skipWs rest with
      | [] => none
      | c2 :: rest2 =>
        if c2 = ']' then some ([], rest2)
        else do
          let (x, r1) ← parseSourceCite (c2 :: rest2)
          let (xs, r2) ← parseCitesRest (r1.length + 1) r1
          return (x :: xs, r2)
    else none

/-- Parse one turn object. -/
def parseTurn (l : List Char) : Option (Turn × List Char) := do
  let r1 ← expectChar '{' l
  let (q, r2) ← parseStrFieldComma "question" r1
  let (resp, r3) ← parseStrFieldComma "response" r2
  let r4 ← parseKeyColon "sources" r3
  let (srcs, r5) ← parseCitesArray r4
  let r6 ← expectChar '}' r5
  return (⟨⟨q⟩, ⟨resp⟩, srcs⟩, r6)

/-- Parse the `("," item)* "]"` tail of a turn array. -/
def parseTurnsRest : Nat → List Char → Option (List Turn × List Char)
  | 0, _ => none
  | fuel + 1, l =>
    match skipWs l with
    | [] => none
    | c :: rest =>
      if c = ']' then some ([], rest)
      else if c = ',' then do
        let (x, r1) ← parseTurn rest
        let (xs, r2) ← parseTurnsRest fuel r1
        return (x :: xs, r2)
      else none

/-- Parse a turn array. -/
def parseTurnsArray (l : List Char) : Option (List Turn × List Char) :=
  match skipWs l with
  | [] => none
  | c :: rest =>
    if c = '[' then
      match skipWs rest with
      | [] => none
      | c2 :: rest2 =>
        if c2 = ']' then some ([], rest2)
        else do
          let (x, r1) ← parseTurn (c2 :: rest2)
          let (xs, r2) ← parseTurnsRest (r1.length + 1) r1
          return (x :: xs, r2)
    else none

/-- Parse the four leading string fields of the session record. -/
def parseSessionStrings (l : List Char) :
    Option ((List Char × List Char × List Char × List Char) × List Char) := do
  let (sid, r1) ← parseStrFieldComma "session_id" l
  let (sname, r2) ← parseStrFieldComma "session_name" r1
  let (st, r3) ← parseStrFieldComma "start_time" r2
  let (lu, r4) ← parseStrFieldComma "last_updated" r3
  return ((sid, sname, st, lu), r4)

/-- Parse the session record object, returning the unconsumed tail. -/
def parseSessionPre (l : List Char) : Option (Session × List Char) := do
  let r1 ← expectChar '{' l
  let (strs, r2) ← parseSessionStrings r1
  let r3 ← parseKeyColon "message_count" r2
  let (mc, r4) ← parseNatTok r3
  let r5 ← expectChar ',' r4
  let r6 ← parseKeyColon "conversation" r5
  let (conv, r7) ← parseTurnsArray r6
  let r8 ← expectChar '}' r7
  return (⟨⟨strs.1⟩, ⟨strs.2.1⟩, ⟨strs.2.2.1⟩, ⟨strs.2.2.2⟩, mc, conv⟩, r8)

/-- `json.load` of a session file: the record followed only by
whitespace. -/
def parseSession (l : List Char) : Option Session := do
  let (s, r) ← parseSessionPre l
  match skipWs r with
  | [] => some s
  | _ :: _ => none

/-! ## Round-trip lemmas: whitespace and tokens -/

lemma skipWs_cons_of_neg {c : Char} (l : List Char) (h : isJsonWs c = false) :
    skipWs (c :: l) = c :: l := by
  simp [skipWs, List.dropWhile_cons, h]

lemma skipWs_cons_of_pos {c : Char} (l : List Char) (h : isJsonWs c = true) :
    skipWs (c :: l) = skipWs l := by
  simp [skipWs, List.dropWhile_cons, h]

lemma skipWs_ind (d : Nat) (l : List Char) : skipWs (ind d ++ l) = skipWs l := by
  induction d with
  | zero => rfl
  | succ k ih =>
    rw [ind, List.replicate_succ, List.cons_append,
      skipWs_cons_of_pos _ (by decide)]
    exact ih

/-- A hex digit printed by the serializer reads back to its value. -/
lemma hexVal_hexDigit {d : Nat} (h : d < 16) : hexVal (hexDigit d) = some d := by
  interval_cases d <;> decide

/-- One escaped character parses back to that character, whatever the
escape form used. -/
lemma parseStringBody_escapeChar (c : Char) (rest : List Char) :
    parseStringBody (escapeChar c ++ rest) =
      (parseStringBody rest).map (fun p => (c :: p.1, p.2)) := by
  unfold escapeChar
  split_ifs with h1 h2 h3 h4 h5 h6 h7 h8
  · subst h1
    simp only [List.cons_append, List.nil_append]
    rw [parseStringBody.eq_def]
    simp [unescapeChar]
  · subst h2
    simp only [List.cons_append, List.nil_append]
    rw [parseStringBody.eq_def]
    simp [unescapeChar]
  · subst h3
    simp only [List.cons_append, List.nil_append]
    rw [parseStringBody.eq_def]
    simp [unescapeChar]
  · subst h4
    simp only [List.cons_append, List.nil_append]
    rw [parseStringBody.eq_def]
    simp [unescapeChar]
  · subst h5
    simp only [List.cons_append, List.nil_append]
    rw [parseStringBody.eq_def]
    simp [unescapeChar]
  · subst h6
    simp only [List.cons_append, List.nil_append]
    rw [parseStringBody.eq_def]
    simp [unescapeChar]
  · subst h7
    simp only [List.cons_append, List.nil_append]
    rw [parseStringBody.eq_def]
    simp [unescapeChar]
  · have hhi : hexVal (hexDigit (c.toNat / 16)) = some (c.toNat / 16) :=
      hexVal_hexDigit (by omega)
    have hlo : hexVal (hexDigit (c.toNat % 16)) = some (c.toNat % 16) :=
      hexVal_hexDigit (by omega)
    have harith : ((0 * 16 + 0) * 16 + c.toNat / 16) * 16 + c.toNat % 16 = c.toNat := by
      omega
    simp only [List.cons_append, List.nil_append]
    rw [parseStringBody.eq_def]
    simp only [show hexVal '0' = some 0 from by decide, hhi, hlo]
    simp only [reduceIte, if_true]
    rw [harith, Char.ofNat_toNat, if_neg (by decide)]
  · rw [parseStringBody.eq_def]
    simp [h1, h2]

/-- The serialized body of a string literal parses back to the string,
with the tail after the closing quote untouched. -/
lemma parseStringBody_dumpBody (s : List Char) (rest : List Char) :
    parseStringBody ((s.map escapeChar).flatten ++ '"' :: rest) = some (s, rest) := by
  induction s with
  | nil =>
    simp only [List.map_nil, List.flatten_nil, List.nil_append]
    rw [parseStringBody.eq_def]
    simp
  | cons c cs ih =>
    simp only [List.map_cons, List.flatten_cons, List.append_assoc]
    rw [parseStringBody_escapeChar, ih]
    rfl

/-- A serialized string literal parses back to its characters. -/
lemma parseString_dump (s : String) (rest : List Char) :
    parseString (dumpString s ++ rest) = some (s.data, rest) := by
  unfold parseString dumpString
  simp only [List.cons_append, List.append_assoc, List.singleton_append]
  rw [skipWs_cons_of_neg _ (by decide)]
  exact parseStringBody_dumpBody s.data rest

/-! ## Round-trip lemmas: numbers -/

lemma digitChar_isDigit {d : Nat} (h : d < 10) :
    (Nat.digitChar d).isDigit = true := by
  interval_cases d <;> decide

lemma digitChar_not_ws {d : Nat} (h : d < 10) :
    isJsonWs (Nat.digitChar d) = false := by
  interval_cases d <;> decide

lemma digitChar_decode {d : Nat} (h : d < 10) :
    (Nat.digitChar d).toNat - 48 = d := by
  interval_cases d <;> decide

lemma natToChars_mem (n : Nat) :
    ∀ c ∈ natToChars n, ∃ d, d < 10 ∧ c = Nat.digitChar d := by
  induction n using Nat.strong_induction_on with
  | _ n ih =>
    intro c hc
    rw [natToChars] at hc
    split at hc
    · next h =>
      simp only [List.mem_singleton] at hc
      exact ⟨n, h, hc⟩
    · next h =>
      rcases List.mem_append.mp hc with h1 | h2
      · exact ih (n / 10) (Nat.div_lt_self (by omega) (by omega)) c h1
      · simp only [List.mem_singleton] at h2
        exact ⟨n % 10, Nat.mod_lt _ (by omega), h2⟩

lemma natToChars_ne_nil (n : Nat) : natToChars n ≠ [] := by
  rw [natToChars]
  split
  · simp
  · simp

lemma natToChars_foldl (n : Nat) :
    ∀ a : Nat, (natToChars n).foldl (fun acc c => 10 * acc + (c.toNat - 48)) a =
      a * 10 ^ (natToChars n).length + n := by
  induction n using Nat.strong_induction_on with
  | _ n ih =>
    intro a
    rw [natToChars]
    split
    · next h =>
      simp only [List.foldl_cons, List.foldl_nil, List.length_singleton, pow_one]
      rw [digitChar_decode h]
      omega
    · next h =>
      rw [List.foldl_append, ih (n / 10) (Nat.div_lt_self (by omega) (by omega)) a]
      simp only [List.foldl_cons, List.foldl_nil, List.length_append,
        List.length_singleton, pow_succ]
      rw [digitChar_decode (Nat.mod_lt _ (by omega))]
      have hdm := Nat.div_add_mod n 10
      generalize (10 : Nat) ^ (natToChars (n / 10)).length = P
      have hP : a * (P * 10) = a * P * 10 := by ring
      rw [hP]
      generalize a * P = Q
      omega

lemma takeWhile_append_of_all {p : Char → Bool} {xs ys : List Char}
    (h : ∀ c ∈ xs, p c = true) :
    (xs ++ ys).takeWhile p = xs ++ ys.takeWhile p := by
  induction xs with
  | nil => simp
  | cons x l ih =>
    rw [List.cons_append, List.takeWhile_cons_of_pos (h x (List.mem_cons_self _ _)),
      List.cons_append, ih (fun c hc => h c (List.mem_cons_of_mem _ hc))]

lemma dropWhile_append_of_all {p : Char → Bool} {xs ys : List Char}
    (h : ∀ c ∈ xs, p c = true) :
    (xs ++ ys).dropWhile p = ys.dropWhile p := by
  induction xs with
  | nil => simp
  | cons x l ih =>
    rw [List.cons_append, List.dropWhile_cons, if_pos (h x (List.mem_cons_self _ _))]
    exact ih (fun c hc => h c (List.mem_cons_of_mem _ hc))

/-- A serialized nonnegative integer parses back to its value, provided
the following character is not a digit (true after every number in the
record's layout: `','` or `'\n'` follows). -/
lemma parseNatTok_dump (n : Nat) (rest : List Char)
    (hrest : ∀ c, rest.head? = some c → c.isDigit = false) :
    parseNatTok (natToChars n ++ rest) = some (n, rest) := by
  have hall : ∀ c ∈ natToChars n, Char.isDigit c = true := by
    intro c hc
    obtain ⟨d, hd, rfl⟩ := natToChars_mem n c hc
    exact digitChar_isDigit hd
  have hskip : skipWs (natToChars n ++ rest) = natToChars n ++ rest := by
    cases h : natToChars n with
    | nil => exact absurd h (natToChars_ne_nil n)
    | cons c cs =>
      obtain ⟨d, hd, hcd⟩ := natToChars_mem n c (by rw [h]; exact List.mem_cons_self _ _)
      rw [List.cons_append, skipWs_cons_of_neg _ (by rw [hcd]; exact digitChar_not_ws hd)]
  have ht : rest.takeWhile Char.isDigit = [] := by
    cases rest with
    | nil => rfl
    | cons c cs => exact List.takeWhile_cons_of_neg (by rw [hrest c rfl]; decide)
  have hd2 : rest.dropWhile Char.isDigit = rest := by
    cases rest with
    | nil => rfl
    | cons c cs =>
      rw [List.dropWhile_cons, hrest c rfl, if_neg (by decide)]
  have hne : (natToChars n ++ rest).takeWhile Char.isDigit ≠ [] := by
    rw [takeWhile_append_of_all hall, ht, List.append_nil]
    exact natToChars_ne_nil n
  unfold parseNatTok
  rw [hskip]
  simp only [takeWhile_append_of_all hall, ht, List.append_nil,
    dropWhile_append_of_all hall, hd2]
  rw [if_neg (by simp [List.isEmpty_iff]; exact natToChars_ne_nil n)]
  rw [natToChars_foldl n 0]
  simp

/-! ## Round-trip lemmas: leading whitespace is insignificant -/

lemma parseString_ws_cons {c : Char} (h : isJsonWs c = true) (l : List Char) :
    parseString (c :: l) = parseString l := by
  unfold parseString; rw [skipWs_cons_of_pos _ h]

lemma parseString_ind (d : Nat) (l : List Char) :
    parseString (ind d ++ l) = parseString l := by
  unfold parseString; rw [skipWs_ind]

lemma expectChar_ws_cons {ch c : Char} (h : isJsonWs c = true) (l : List Char) :
    expectChar ch (c :: l) = expectChar ch l := by
  unfold expectChar; rw [skipWs_cons_of_pos _ h]

lemma expectChar_ind (ch : Char) (d : Nat) (l : List Char) :
    expectChar ch (ind d ++ l) = expectChar ch l := by
  unfold expectChar; rw [skipWs_ind]

lemma parseNatTok_ws_cons {c : Char} (h : isJsonWs c = true) (l : List Char) :
    parseNatTok (c :: l) = parseNatTok l := by
  unfold parseNatTok; rw [skipWs_cons_of_pos _ h]

lemma parseKeyColon_ws_cons (key : String) {c : Char} (h : isJsonWs c = true)
    (l : List Char) : parseKeyColon key (c :: l) = parseKeyColon key l := by
  unfold parseKeyColon; rw [parseString_ws_cons h]

lemma parseKeyColon_ind (key : String) (d : Nat) (l : List Char) :
    parseKeyColon key (ind d ++ l) = parseKeyColon key l := by
  unfold parseKeyColon; rw [parseString_ind]

lemma parseStrFieldComma_ws_cons (key : String) {c : Char}
    (h : isJsonWs c = true) (l : List Char) :
    parseStrFieldComma key (c :: l) = parseStrFieldComma key l := by
  unfold parseStrFieldComma; rw [parseKeyColon_ws_cons key h]

lemma parseStrFieldComma_ind (key : String) (d : Nat) (l : List Char) :
    parseStrFieldComma key (ind d ++ l) = parseStrFieldComma key l := by
  unfold parseStrFieldComma; rw [parseKeyColon_ind]

lemma parseSourceCite_ws_cons {c : Char} (h : isJsonWs c = true) (l : List Char) :
    parseSourceCite (c :: l) = parseSourceCite l := by
  unfold parseSourceCite; rw [expectChar_ws_cons h]

lemma parseSourceCite_ind (d : Nat) (l : List Char) :
    parseSourceCite (ind d ++ l) = parseSourceCite l := by
  unfold parseSourceCite; rw [expectChar_ind]

lemma parseTurn_ws_cons {c : Char} (h : isJsonWs c = true) (l : List Char) :
    parseTurn (c :: l) = parseTurn l := by
  unfold parseTurn; rw [expectChar_ws_cons h]

lemma parseTurn_ind (d : Nat) (l : List Char) :
    parseTurn (ind d ++ l) = parseTurn l := by
  unfold parseTurn; rw [expectChar_ind]

lemma parseCitesArray_ws_cons {c : Char} (h : isJsonWs c = true) (l : List Char) :
    parseCitesArray (c :: l) = parseCitesArray l := by
  unfold parseCitesArray; rw [skipWs_cons_of_pos _ h]

lemma parseTurnsArray_ws_cons {c : Char} (h : isJsonWs c = true) (l : List Char) :
    parseTurnsArray (c :: l) = parseTurnsArray l := by
  unfold parseTurnsArray; rw [skipWs_cons_of_pos _ h]

/-! ## Round-trip lemmas: objects -/

/-- A punctuation token at the head of the input is consumed. -/
lemma expectChar_tok {ch : Char} (h : isJsonWs ch = false) (l : List Char) :
    expectChar ch (ch :: l) = some l := by
  unfold expectChar
  rw [skipWs_cons_of_neg _ h]
  simp

/-- A serialized key and its colon parse off the front. -/
lemma parseKeyColon_dump (key : String) (rest : List Char) :
    parseKeyColon key (dumpString key ++ (':' :: rest)) = some rest := by
  unfold parseKeyColon
  rw [parseString_dump]
  have h : expectChar ':' (':' :: rest) = some rest := expectChar_tok (by decide) rest
  simp [h]

/-- A serialized string field (key, colon-space, value, comma) parses
off the front. -/
lemma parseStrFieldComma_dump (key v : String) (rest : List Char) :
    parseStrFieldComma key
      (dumpString key ++ (':' :: (' ' :: (dumpString v ++ (',' :: rest))))) =
      some (v.data, rest) := by
  unfold parseStrFieldComma
  rw [parseKeyColon_dump]
  simp only [Option.pure_def, Option.bind_eq_bind, Option.some_bind]
  rw [parseString_ws_cons (by decide), parseString_dump]
  simp only [Option.pure_def, Option.bind_eq_bind, Option.some_bind]
  rw [expectChar_tok (by decide)]
  rfl

/-- A serialized source citation parses back to itself. -/
lemma parseSourceCite_dump (d : Nat) (sc : SourceCite) (rest : List Char) :
    parseSourceCite (dumpSourceCite d sc ++ rest) = some (sc, rest) := by
  unfold dumpSourceCite
  simp only [List.cons_append, List.nil_append, List.append_assoc]
  unfold parseSourceCite
  rw [expectChar_tok (by decide)]
  simp only [Option.pure_def, Option.bind_eq_bind, Option.some_bind]
  rw [parseStrFieldComma_ws_cons _ (by decide), parseStrFieldComma_ind,
    parseStrFieldComma_dump]
  simp only [Option.pure_def, Option.bind_eq_bind, Option.some_bind]
  rw [parseKeyColon_ws_cons _ (by decide), parseKeyColon_ind, parseKeyColon_dump]
  simp only [Option.pure_def, Option.bind_eq_bind, Option.some_bind]
  rw [parseNatTok_ws_cons (by decide),
    parseNatTok_dump _ _ (by intro c hc; rw [List.head?_cons] at hc; cases hc; decide)]
  simp only [Option.pure_def, Option.bind_eq_bind, Option.some_bind]
  rw [expectChar_ws_cons (by decide), expectChar_ind, expectChar_tok (by decide)]
  rfl

/-! ## Round-trip lemmas: arrays -/

lemma parseCitesRest_succ (fuel : Nat) (l : List Char) :
    parseCitesRest (fuel + 1) l =
      match skipWs l with
      | [] => none
      | c :: rest =>
        if c = ']' then some ([], rest)
        else if c = ',' then do
          let (x, r1) ← parseSourceCite rest
          let (xs, r2) ← parseCitesRest fuel r1
          return (x :: xs, r2)
        else none := rfl

lemma parseTurnsRest_succ (fuel : Nat) (l : List Char) :
    parseTurnsRest (fuel + 1) l =
      match skipWs l with
      | [] => none
      | c :: rest =>
        if c = ']' then some ([], rest)
        else if c = ',' then do
          let (x, r1) ← parseTurn rest
          let (xs, r2) ← parseTurnsRest fuel r1
          return (x :: xs, r2)
        else none := rfl

/-- The serialized tail of a citation array is at least one character
per element long (fuel sufficiency). -/
lemma dumpCitesRest_length (d : Nat) (xs : List SourceCite) :
    xs.length + 1 ≤ (dumpCitesRest d xs).length := by
  induction xs with
  | nil =>
    simp [dumpCitesRest]
  | cons x l ih =>
    simp only [dumpCitesRest, List.length_cons, List.length_append]
    omega

lemma dumpTurnsRest_length (d : Nat) (xs : List Turn) :
    xs.length + 1 ≤ (dumpTurnsRest d xs).length := by
  induction xs with
  | nil =>
    simp [dumpTurnsRest]
  | cons x l ih =>
    simp only [dumpTurnsRest, List.length_cons, List.length_append]
    omega

/-- The serialized tail of a citation array parses back, given fuel for
every element. -/
lemma parseCitesRest_dump (d : Nat) (xs : List SourceCite) :
    ∀ (rest : List Char) (fuel : Nat), xs.length + 1 ≤ fuel →
      parseCitesRest fuel (dumpCitesRest d xs ++ rest) = some (xs, rest) := by
  induction xs with
  | nil =>
    intro rest fuel hf
    obtain ⟨f, rfl⟩ : ∃ f, fuel = f + 1 := ⟨fuel - 1, by omega⟩
    rw [parseCitesRest_succ]
    unfold dumpCitesRest
    simp only [List.cons_append, List.nil_append, List.append_assoc]
    rw [skipWs_cons_of_pos _ (by decide), skipWs_ind,
      skipWs_cons_of_neg _ (by decide)]
    rfl
  | cons x l ih =>
    intro rest fuel hf
    obtain ⟨f, rfl⟩ : ∃ f, fuel = f + 1 := ⟨fuel - 1, by omega⟩
    rw [parseCitesRest_succ]
    unfold dumpCitesRest
    simp only [List.cons_append, List.nil_append, List.append_assoc]
    rw [skipWs_cons_of_neg _ (by decide)]
    dsimp only
    rw [if_neg (by decide), if_pos rfl]
    rw [parseSourceCite_ws_cons (by decide), parseSourceCite_ind,
      parseSourceCite_dump]
    simp only [Option.pure_def, Option.bind_eq_bind, Option.some_bind]
    rw [ih _ f (by simp at hf; omega)]
    rfl

lemma parseTurnsRest_dump (d : Nat) (xs : List Turn) (hturn : ∀ (t : Turn)
      (r : List Char), parseTurn (dumpTurn (d + 2) t ++ r) = some (t, r)) :
    ∀ (rest : List Char) (fuel : Nat), xs.length + 1 ≤ fuel →
      parseTurnsRest fuel (dumpTurnsRest d xs ++ rest) = some (xs, rest) := by
  induction xs with
  | nil =>
    intro rest fuel hf
    obtain ⟨f, rfl⟩ : ∃ f, fuel = f + 1 := ⟨fuel - 1, by omega⟩
    rw [parseTurnsRest_succ]
    unfold dumpTurnsRest
    simp only [List.cons_append, List.nil_append, List.append_assoc]
    rw [skipWs_cons_of_pos _ (by decide), skipWs_ind,
      skipWs_cons_of_neg _ (by decide)]
    rfl
  | cons x l ih =>
    intro rest fuel hf
    obtain ⟨f, rfl⟩ : ∃ f, fuel = f + 1 := ⟨fuel - 1, by omega⟩
    rw [parseTurnsRest_succ]
    unfold dumpTurnsRest
    simp only [List.cons_append, List.nil_append, List.append_assoc]
    rw [skipWs_cons_of_neg _ (by decide)]
    dsimp only
    rw [if_neg (by decide), if_pos rfl]
    rw [parseTurn_ws_cons (by decide), parseTurn_ind, hturn]
    simp only [Option.pure_def, Option.bind_eq_bind, Option.some_bind]
    rw [ih _ f (by simp at hf; omega)]
    rfl

/-- A serialized citation array parses back to its list. -/
lemma parseCitesArray_dump (d : Nat) (xs : List SourceCite) (rest : List Char) :
    parseCitesArray (dumpCites d xs ++ rest) = some (xs, rest) := by
  cases xs with
  | nil =>
    unfold dumpCites parseCitesArray
    simp only [List.cons_append, List.nil_append]
    rw [skipWs_cons_of_neg _ (by decide)]
    dsimp only
    rw [if_pos rfl]
    rw [skipWs_cons_of_neg _ (by decide)]
    dsimp only
    rw [if_pos rfl]
  | cons x l =>
    unfold dumpCites parseCitesArray
    simp only [List.cons_append, List.nil_append, List.append_assoc]
    rw [skipWs_cons_of_neg _ (by decide)]
    dsimp only
    rw [if_pos rfl]
    obtain ⟨u, hu⟩ : ∃ u,
        dumpSourceCite (d + 2) x ++ (dumpCitesRest d l ++ rest) = '{' :: u :=
      ⟨_, by
        unfold dumpSourceCite
        simp only [List.cons_append, List.nil_append, List.append_assoc]
        rfl⟩
    rw [skipWs_cons_of_pos _ (by decide), skipWs_ind, hu,
      skipWs_cons_of_neg _ (by decide)]
    dsimp only
    rw [if_neg (by decide)]
    rw [← hu, parseSourceCite_dump]
    simp only [Option.pure_def, Option.bind_eq_bind, Option.some_bind]
    rw [parseCitesRest_dump d l _ _
      (by have := dumpCitesRest_length d l; simp [List.length_append]; omega)]
    rfl

/-- A serialized turn parses back to itself. -/
lemma parseTurn_dump (d : Nat) (t : Turn) (rest : List Char) :
    parseTurn (dumpTurn d t ++ rest) = some (t, rest) := by
  unfold dumpTurn
  simp only [List.cons_append, List.nil_append, List.append_assoc]
  unfold parseTurn
  rw [expectChar_tok (by decide)]
  simp only [Option.pure_def, Option.bind_eq_bind, Option.some_bind]
  rw [parseStrFieldComma_ws_cons _ (by decide), parseStrFieldComma_ind,
    parseStrFieldComma_dump]
  simp only [Option.pure_def, Option.bind_eq_bind, Option.some_bind]
  rw [parseStrFieldComma_ws_cons _ (by decide), parseStrFieldComma_ind,
    parseStrFieldComma_dump]
  simp only [Option.pure_def, Option.bind_eq_bind, Option.some_bind]
  rw [parseKeyColon_ws_cons _ (by decide), parseKeyColon_ind, parseKeyColon_dump]
  simp only [Option.pure_def, Option.bind_eq_bind, Option.some_bind]
  rw [parseCitesArray_ws_cons (by decide), parseCitesArray_dump]
  simp only [Option.pure_def, Option.bind_eq_bind, Option.some_bind]
  rw [expectChar_ws_cons (by decide), expectChar_ind, expectChar_tok (by decide)]
  rfl

/-- A serialized turn array parses back to its list. -/
lemma parseTurnsArray_dump (d : Nat) (xs : List Turn) (rest : List Char) :
    parseTurnsArray (dumpTurns d xs ++ rest) = some (xs, rest) := by
  cases xs with
  | nil =>
    unfold dumpTurns parseTurnsArray
    simp only [List.cons_append, List.nil_append]
    rw [skipWs_cons_of_neg _ (by decide)]
    dsimp only
    rw [if_pos rfl]
    rw [skipWs_cons_of_neg _ (by decide)]
    dsimp only
    rw [if_pos rfl]
  | cons x l =>
    unfold dumpTurns parseTurnsArray
    simp only [List.cons_append, List.nil_append, List.append_assoc]
    rw [skipWs_cons_of_neg _ (by decide)]
    dsimp only
    rw [if_pos rfl]
    obtain ⟨u, hu⟩ : ∃ u,
        dumpTurn (d + 2) x ++ (dumpTurnsRest d l ++ rest) = '{' :: u :=
      ⟨_, by
        unfold dumpTurn
        simp only [List.cons_append, List.nil_append, List.append_assoc]
        rfl⟩
    rw [skipWs_cons_of_pos _ (by decide), skipWs_ind, hu,
      skipWs_cons_of_neg _ (by decide)]
    dsimp only
    rw [if_neg (by decide)]
    rw [← hu, parseTurn_dump]
    simp only [Option.pure_def, Option.bind_eq_bind, Option.some_bind]
    rw [parseTurnsRest_dump d l (fun t r => parseTurn_dump (d + 2) t r) _ _
      (by have := dumpTurnsRest_length d l; simp [List.length_append]; omega)]
    rfl

/-! ## Round-trip: the session record -/

lemma parseSessionStrings_ws_cons {c : Char} (h : isJsonWs c = true)
    (l : List Char) : parseSessionStrings (c :: l) = parseSessionStrings l := by
  unfold parseSessionStrings; rw [parseStrFieldComma_ws_cons _ h]

lemma parseSessionStrings_ind (d : Nat) (l : List Char) :
    parseSessionStrings (ind d ++ l) = parseSessionStrings l := by
  unfold parseSessionStrings; rw [parseStrFieldComma_ind]

/-- The four leading string fields of the record parse back. -/
lemma parseSessionStrings_dump (sid sname st lu : String) (rest : List Char) :
    parseSessionStrings
      (dumpString "session_id" ++ (':' :: (' ' :: (dumpString sid ++ (',' :: ('\n' :: (ind 2 ++ (dumpString "session_name" ++ (':' :: (' ' :: (dumpString sname ++ (',' :: ('\n' :: (ind 2 ++ (dumpString "start_time" ++ (':' :: (' ' :: (dumpString st ++ (',' :: ('\n' :: (ind 2 ++ (dumpString "last_updated" ++ (':' :: (' ' :: (dumpString lu ++ (',' :: rest)))))))))))))))))))))))))) =
      some ((sid.data, sname.data, st.data, lu.data), rest) := by
  unfold parseSessionStrings
  rw [parseStrFieldComma_dump]
  simp only [Option.pure_def, Option.bind_eq_bind, Option.some_bind]
  rw [parseStrFieldComma_ws_cons _ (by decide), parseStrFieldComma_ind,
    parseStrFieldComma_dump]
  simp only [Option.pure_def, Option.bind_eq_bind, Option.some_bind]
  rw [parseStrFieldComma_ws_cons _ (by decide), parseStrFieldComma_ind,
    parseStrFieldComma_dump]
  simp only [Option.pure_def, Option.bind_eq_bind, Option.some_bind]
  rw [parseStrFieldComma_ws_cons _ (by decide), parseStrFieldComma_ind,
    parseStrFieldComma_dump]
  rfl

/-- The serialized session record parses back to the record, leaving the
tail untouched. -/
lemma parseSessionPre_dump (s : Session) (rest : List Char) :
    parseSessionPre (dumpSession s ++ rest) = some (s, rest) := by
  unfold dumpSession
  simp only [List.cons_append, List.nil_append, List.append_assoc]
  unfold parseSessionPre
  rw [expectChar_tok (by decide)]
  simp only [Option.pure_def, Option.bind_eq_bind, Option.some_bind]
  rw [parseSessionStrings_ws_cons (by decide), parseSessionStrings_ind,
    parseSessionStrings_dump]
  simp only [Option.pure_def, Option.bind_eq_bind, Option.some_bind]
  rw [parseKeyColon_ws_cons _ (by decide), parseKeyColon_ind, parseKeyColon_dump]
  simp only [Option.pure_def, Option.bind_eq_bind, Option.some_bind]
  rw [parseNatTok_ws_cons (by decide),
    parseNatTok_dump _ _ (by intro c hc; rw [List.head?_cons] at hc; cases hc; decide)]
  simp only [Option.pure_def, Option.bind_eq_bind, Option.some_bind]
  rw [expectChar_tok (by decide)]
  simp only [Option.pure_def, Option.bind_eq_bind, Option.some_bind]
  rw [parseKeyColon_ws_cons _ (by decide), parseKeyColon_ind, parseKeyColon_dump]
  simp only [Option.pure_def, Option.bind_eq_bind, Option.some_bind]
  rw [parseTurnsArray_ws_cons (by decide), parseTurnsArray_dump]
  simp only [Option.pure_def, Option.bind_eq_bind, Option.some_bind]
  rw [expectChar_ws_cons (by decide), expectChar_tok (by decide)]
  rfl

/-- `json.load` of a file written by `save_session` returns exactly the
session record that was saved. -/
lemma parseSession_dump (s : Session) : parseSession (dumpSession s) = some s := by
  have hpre : parseSessionPre (dumpSession s) = some (s, []) := by
    have h := parseSessionPre_dump s []
    rwa [List.append_nil] at h
  unfold parseSession
  rw [hpre]
  rfl

/-- The JSON branch of `ChatEngine.export_session` (chat_engine.py lines
335-338): load the persisted session file, then `json.dump` the loaded
record verbatim into the export file; `none` when the file does not
parse. -/
def export_session_json (fileContent : List Char) : Option (List Char) :=
  (parseSession fileContent).map dumpSession

/-- **C7.** Exporting a persisted session in the JSON format writes
exactly the serialization of the persisted record, and re-parsing the
exported file yields a record equal field-for-field (Lean equality of
the `Session` structure: id, name, start time, last updated, message
count and the full conversation array) to the persisted session. -/
theorem C7_export_json_roundtrip (s : Session) :
    export_session_json (dumpSession s) = some (dumpSession s) ∧
    parseSession (dumpSession s) = some s := by
  constructor
  · unfold export_session_json
    rw [parseSession_dump]
    rfl
  · exact parseSession_dump s

/-! ## Session persistence (`ChatEngine.save_session`, lines 216-242)

The engine's in-memory session state and the record `save_session`
serializes.  `datetime.now()` values are injected as ISO-8601 strings;
`strftime('%Y-%m-%d %H:%M')` is an external, deterministic formatting
function and is passed in as `fmtShort`.  `save_session` returns `none`
exactly when Python would raise before writing (an `AttributeError` on
`session_start_time.strftime` — possible only in the unreachable state
"id set but start time unset" with a falsy name). -/

structure EngineSessionState where
  current_session_id : Option String
  session_start_time : Option String
  conversation_history : List Turn
deriving DecidableEq, Repr

/-- `ChatEngine.start_new_session` (lines 203-214): fresh id, now as
start time, cleared history. -/
def start_new_session (freshId now : String) : EngineSessionState :=
  { current_session_id := some freshId, session_start_time := some now,
    conversation_history := [] }

/-- The `session_data` dict built by `save_session` (lines 226-233),
plus the key it is stored under.  `session_name or f"Chat {...}"`:
Python `or` treats `None` and `""` as falsy and only then evaluates the
default (which dereferences `session_start_time`). -/
def sessionRecord (st1 : EngineSessionState) (session_name : Option String)
    (fmtShort : String → String) (now : String) : Option (String × Session) :=
  match st1.current_session_id with
  | none => none
  | some sid =>
    let nameOpt : Option String :=
      match session_name with
      | some x =>
        if x = "" then st1.session_start_time.map (fun s => "Chat " ++ fmtShort s)
        else some x
      | none => st1.session_start_time.map (fun s => "Chat " ++ fmtShort s)
    nameOpt.map (fun nm =>
      (sid, { session_id := sid, session_name := nm,
              start_time := st1.session_start_time.getD now,
              last_updated := now,
              message_count := st1.conversation_history.length,
              conversation := st1.conversation_history }))

/-- `ChatEngine.save_session`: start a session implicitly if none is
active, then build the record keyed by the current session id (the
file written is `dumpSession` of the record). -/
def save_session (st : EngineSessionState) (session_name : Option String)
    (fmtShort : String → String) (freshId now : String) :
    Option (EngineSessionState × String × Session) :=
  let st1 := if st.current_session_id.isSome then st
    else start_new_session freshId now
  (sessionRecord st1 session_name fmtShort now).map (fun p => (st1, p.1, p.2))

/-- Evaluation of `save_session` on a state with id and start time set. -/
lemma save_session_of_set (sid stime : String) (hist : List Turn)
    (session_name : Option String) (fmtShort : String → String)
    (freshId now : String) :
    save_session ⟨some sid, some stime, hist⟩ session_name fmtShort freshId now =
      some (⟨some sid, some stime, hist⟩, sid,
        { session_id := sid,
          session_name :=
            match session_name with
            | some x => if x = "" then "Chat " ++ fmtShort stime else x
            | none => "Chat " ++ fmtShort stime,
          start_time := stime, last_updated := now,
          message_count := hist.length, conversation := hist }) := by
  cases session_name with
  | none => rfl
  | some x =>
    by_cases hx : x = ""
    · simp [save_session, sessionRecord, hx]
    · simp [save_session, sessionRecord, hx]

/-- Evaluation of `save_session` when no session is active: one is
started implicitly (empty history, start time = now). -/
lemma save_session_of_none (st : EngineSessionState)
    (hid : st.current_session_id = none) (session_name : Option String)
    (fmtShort : String → String) (freshId now : String) :
    save_session st session_name fmtShort freshId now =
      some (⟨some freshId, some now, []⟩, freshId,
        { session_id := freshId,
          session_name :=
            match session_name with
            | some x => if x = "" then "Chat " ++ fmtShort now else x
            | none => "Chat " ++ fmtShort now,
          start_time := now, last_updated := now,
          message_count := 0, conversation := [] }) := by
  unfold save_session
  rw [hid]
  cases session_name with
  | none => rfl
  | some x =>
    by_cases hx : x = ""
    · simp [sessionRecord, start_new_session, hx]
    · simp [sessionRecord, start_new_session, hx]

/-- **C8.** Calling `save_session` twice in a row (same name argument,
no turns appended in between) writes under the same session id a record
with identical conversation, session_id, session_name, start_time and
message_count; only `last_updated` differs (it takes the second call's
timestamp).  The engine invariant "an active session id implies a start
time" (true of every state the engine constructs) is assumed. -/
theorem C8_save_session_idempotent (st : EngineSessionState)
    (session_name : Option String) (fmtShort : String → String)
    (fid1 fid2 t1 t2 : String)
    (hinv : st.current_session_id.isSome → st.session_start_time.isSome) :
    ∀ st1 sid1 r1,
      save_session st session_name fmtShort fid1 t1 = some (st1, sid1, r1) →
      save_session st1 session_name fmtShort fid2 t2 =
        some (st1, sid1, { r1 with last_updated := t2 }) := by
  intro st1 sid1 r1 h1
  obtain ⟨idOpt, stOpt, hist⟩ := st
  cases idOpt with
  | none =>
    rw [save_session_of_none _ rfl] at h1
    simp only [Option.some.injEq, Prod.mk.injEq] at h1
    obtain ⟨hst1, hsid, hr1⟩ := h1
    subst hst1
    subst hsid
    subst hr1
    rw [save_session_of_set]
    rfl
  | some sid =>
    have hst : stOpt.isSome := hinv (by rfl)
    obtain ⟨stime, rfl⟩ := Option.isSome_iff_exists.mp hst
    rw [save_session_of_set] at h1
    simp only [Option.some.injEq, Prod.mk.injEq] at h1
    obtain ⟨hst1, hsid, hr1⟩ := h1
    subst hst1
    subst hsid
    subst hr1
    rw [save_session_of_set]

/-- Witness for C8: a fresh engine, first save starts the session
implicitly; the second save rewrites the same record with only
`last_updated` changed. -/
theorem C8_save_session_idempotent_witness :
    ((⟨none, none, []⟩ : EngineSessionState).current_session_id.isSome →
      (⟨none, none, []⟩ : EngineSessionState).session_start_time.isSome) ∧
    save_session (⟨none, none, []⟩ : EngineSessionState) none (fun t => t)
      "id1" "2024-01-01T10:00:00" =
      some (⟨some "id1", some "2024-01-01T10:00:00", []⟩, "id1",
        ⟨"id1", "Chat 2024-01-01T10:00:00", "2024-01-01T10:00:00",
         "2024-01-01T10:00:00", 0, []⟩) ∧
    save_session (⟨some "id1", some "2024-01-01T10:00:00", []⟩ :
        EngineSessionState) none (fun t => t) "id2" "2024-01-02T11:30:00" =
      some (⟨some "id1", some "2024-01-01T10:00:00", []⟩, "id1",
        ⟨"id1", "Chat 2024-01-01T10:00:00", "2024-01-01T10:00:00",
         "2024-01-02T11:30:00", 0, []⟩) :=
  ⟨by simp, by rw [save_session_of_none _ rfl]; rfl,
    C8_save_session_idempotent ⟨none, none, []⟩ none (fun t => t)
      "id1" "id2" "2024-01-01T10:00:00" "2024-01-02T11:30:00" (by simp)
      ⟨some "id1", some "2024-01-01T10:00:00", []⟩ "id1"
      ⟨"id1", "Chat 2024-01-01T10:00:00", "2024-01-01T10:00:00",
       "2024-01-01T10:00:00", 0, []⟩
      (by rw [save_session_of_none _ rfl]; rfl)⟩

/-! ## Session listing (`ChatEngine.list_sessions`, lines 274-307) -/

/-- One entry of the session list. -/
structure SessionMetaEntry where
  session_id : String
  session_name : String
  start_time : String
  last_updated : String
  message_count : Nat
  preview : String
deriving DecidableEq, Repr

/-- The preview: the first question truncated to 100 characters with an
ellipsis marker, or `""` for an empty conversation. -/
def sessionPreview (s : Session) : String :=
  match s.conversation with
  | [] => ""
  | t :: _ =>
    if t.question.length > 100 then ⟨t.question.data.take 100⟩ ++ "..."
    else t.question

/-- The metadata entry built from one parsed session file.  Files
written by `save_session` always carry every field, which is what the
parser enforces. -/
def sessionMetaOf (s : Session) : SessionMetaEntry :=
  ⟨s.session_id, s.session_name, s.start_time, s.last_updated,
    s.message_count, sessionPreview s⟩

/-- `ChatEngine.list_sessions`: read every session file, skip the ones
that fail to parse, and sort by `last_updated` descending (Python
compares the ISO-8601 strings lexicographically, which Lean's `String`
order matches codepoint for codepoint). -/
def list_sessions (files : List (List Char)) : List SessionMetaEntry :=
  List.insertionSort (fun a b => b.last_updated ≤ a.last_updated)
    ((files.filterMap parseSession).map sessionMetaOf)

/-- **C9.** `list_sessions` returns exactly the parseable persisted
sessions (as a permutation), ordered by `last_updated` descending; in
particular, with session A updated strictly before session B, B's entry
appears before A's. -/
theorem C9_list_sessions_sorted (files : List (List Char)) :
    (list_sessions files).Pairwise
      (fun a b => b.last_updated ≤ a.last_updated) ∧
    (list_sessions files).Perm ((files.filterMap parseSession).map sessionMetaOf) ∧
    (∀ (fA fB : List Char) (sA sB : Session),
      parseSession fA = some sA → parseSession fB = some sB →
      sA.last_updated < sB.last_updated →
      list_sessions [fA, fB] = [sessionMetaOf sB, sessionMetaOf sA]) := by
  refine ⟨?_, ?_, ?_⟩
  · haveI : IsTotal SessionMetaEntry
        (fun a b => b.last_updated ≤ a.last_updated) :=
      ⟨fun _ _ => le_total _ _⟩
    haveI : IsTrans SessionMetaEntry
        (fun a b => b.last_updated ≤ a.last_updated) :=
      ⟨fun _ _ _ hab hbc => le_trans hbc hab⟩
    exact List.sorted_insertionSort _ _
  · exact List.perm_insertionSort _ _
  · intro fA fB sA sB hA hB hlt
    unfold list_sessions
    rw [show [fA, fB].filterMap parseSession = [sA, sB] by
      simp [List.filterMap_cons, hA, hB]]
    rw [show ([sA, sB].map sessionMetaOf) = [sessionMetaOf sA, sessionMetaOf sB]
      from rfl]
    rw [show List.insertionSort (fun a b => b.last_updated ≤ a.last_updated)
        [sessionMetaOf sA, sessionMetaOf sB] =
        List.orderedInsert _ (sessionMetaOf sA) [sessionMetaOf sB] from rfl]
    rw [List.orderedInsert]
    rw [if_neg (show ¬(sessionMetaOf sB).last_updated ≤ (sessionMetaOf sA).last_updated from not_le.mpr hlt)]
    rfl

/-- Demo sessions for the C9 witness. -/
def demoSessionA : Session :=
  ⟨"ida", "A", "2024-01-01T10:00:00", "2024-01-01T10:00:00", 0, []⟩

def demoSessionB : Session :=
  ⟨"idb", "B", "2024-01-02T10:00:00", "2024-01-02T10:00:00", 0, []⟩

/-- Witness for C9: session A updated yesterday, session B today — B's
entry comes first. -/
theorem C9_list_sessions_sorted_witness :
    parseSession (dumpSession demoSessionA) = some demoSessionA ∧
    demoSessionA.last_updated < demoSessionB.last_updated ∧
    list_sessions [dumpSession demoSessionA, dumpSession demoSessionB] =
      [sessionMetaOf demoSessionB, sessionMetaOf demoSessionA] :=
  ⟨parseSession_dump _, by rw [String.lt_iff_toList_lt]; decide,
    (C9_list_sessions_sorted
        [dumpSession demoSessionA, dumpSession demoSessionB]).2.2 _ _ _ _
      (parseSession_dump _) (parseSession_dump _)
      (by rw [String.lt_iff_toList_lt]; decide)⟩

/-! ## The Answerer (`ChatEngine.ask`, chat_engine.py lines 51-141)

`ask` is embedded as a total function over an environment of effect
oracles: `ready` is `is_ready()`; `searchRes` and `contextRes` are the
outcomes of the two vector-store calls (`search_filtered`,
`get_context` — their store-level behaviour is verified under C2/C6);
`gen` is the generative-model invocation (including `.text` access) as
a function of the prompt.  `Except.error e` models a raised exception
with message `str(e)`.  Totality of the Lean function is the "never
raises" guarantee: every path yields an `AskResult`. -/

structure AskResult where
  response : String
  sources : List SourceCite
  context_used : Option Bool
  error : Bool
deriving DecidableEq, Repr

structure AskEnv where
  ready : Bool
  searchRes : Except String (List SearchResult)
  contextRes : Except String (List Char)
  gen : List Char → Except String String

/-- The scope note appended when `source_files` was supplied (lines
93-97). -/
def scopeInfo (source_files : List String) : List Char :=
  if source_files.isEmpty then []
  else
    "\n\nNote: This answer is based only on the following selected transcripts: ".toList ++
      joinSep ", ".toList (source_files.map (fun f => pathStemList f.toList))

/-- The prompt (lines 99-112): the RAG prompt when context is
non-empty, the fallback prompt otherwise. -/
def buildPrompt (context : List Char) (question : String)
    (source_files : List String) : List Char :=
  if context.isEmpty then
    "You are a helpful assistant for BBC audio programme transcripts.\n\nUser question: ".toList ++
      question.toList ++
      "\n\nNote: No relevant transcript context was found. Please provide a general response or ask the user to be more specific.".toList
  else
    "You are a helpful assistant that answers questions based on BBC audio programme transcripts.\n\nContext from transcripts:\n".toList ++
      context ++ "\n\nUser question: ".toList ++ question.toList ++
      "\n\nPlease provide a comprehensive answer based on the context above. If the context doesn't contain relevant information, say so. Always cite which source(s) you're referencing.".toList ++
      scopeInfo source_files

/-- The body of `ask`'s `try` block: retrieval (when `use_rag`),
context assembly (only when the search returned something), prompt
construction and the model call.  Any step may raise. -/
def askBody (env : AskEnv) (question : String) (use_rag : Bool)
    (source_files : List String) :
    Except String (String × List SourceCite × Bool) := do
  let (context, sources) ←
    if use_rag then
      match env.searchRes with
      | .error e => .error e
      | .ok results =>
        if results.isEmpty then .ok (([] : List Char), ([] : List SourceCite))
        else
          match env.contextRes with
          | .error e => .error e
          | .ok ctx =>
            .ok (ctx, results.map
              (fun r => (⟨r.metadata.source, r.metadata.chunk_index⟩ : SourceCite)))
    else .ok ([], [])
  let prompt := buildPrompt context question source_files
  match env.gen prompt with
  | .error e => .error e
  | .ok response_text => .ok (response_text, sources, !context.isEmpty)

/-- The "not configured" response (lines 64-69). -/
def notConfiguredResponse : String :=
  "Error: Google AI API key not configured. Please set GOOGLE_AI_API_KEY in .env file."

/-- `ChatEngine.ask`: returns the result and the conversation history
after the call. -/
def ask (env : AskEnv) (history : List Turn) (question : String)
    (use_rag : Bool) (source_files : List String) : AskResult × List Turn :=
  if env.ready then
    match askBody env question use_rag source_files with
    | .ok (response_text, sources, ctxUsed) =>
      ({ response := response_text, sources := sources,
         context_used := some ctxUsed, error := false },
       history ++ [⟨question, response_text, sources⟩])
    | .error e =>
      ({ response := "Error generating response: " ++ e, sources := [],
         context_used := none, error := true }, history)
  else
    ({ response := notConfiguredResponse, sources := [],
       context_used := none, error := true }, history)

/-- **C5.** `ask` never raises (it is a total function of its
environment): with no credential configured it returns the structured
"not configured" result with `error = true` and empty sources; when any
step of the `try` block raises, the exception is caught and surfaced as
`error = true` with the human-readable `"Error generating response: "`
message; and every error result carries empty sources. -/
theorem C5_ask_error_handling (env : AskEnv) (hist : List Turn) (q : String)
    (use_rag : Bool) (srcs : List String) :
    (env.ready = false →
      ask env hist q use_rag srcs =
        ({ response := notConfiguredResponse, sources := [],
           context_used := none, error := true }, hist)) ∧
    (∀ e, env.ready = true → askBody env q use_rag srcs = .error e →
      ask env hist q use_rag srcs =
        ({ response := "Error generating response: " ++ e, sources := [],
           context_used := none, error := true }, hist)) ∧
    ((ask env hist q use_rag srcs).1.error = true →
      (ask env hist q use_rag srcs).1.sources = []) := by
  cases hready : env.ready with
  | false =>
    refine ⟨fun _ => by simp [ask, hready], ?_, ?_⟩
    · intro e h1 _
      exact absurd h1 (by decide)
    · intro _
      simp [ask, hready]
  | true =>
    cases hbody : askBody env q use_rag srcs with
    | error e =>
      refine ⟨?_, ?_, ?_⟩
      · intro h0
        exact absurd h0 (by decide)
      · intro e' _ he'
        injection he' with h
        subst h
        simp [ask, hready, hbody]
      · intro _
        simp [ask, hready, hbody]
    | ok v =>
      obtain ⟨rt, srcs', cu⟩ := v
      refine ⟨?_, ?_, ?_⟩
      · intro h0
        exact absurd h0 (by decide)
      · intro e' _ he'
        cases he'
      · intro herr
        simp [ask, hready, hbody] at herr

/-- Witness for C5: a configured engine whose retrieval raises. -/
theorem C5_ask_error_handling_witness :
    (⟨true, .error "boom", .ok [], fun _ => .ok "ok"⟩ : AskEnv).ready = true ∧
    askBody ⟨true, .error "boom", .ok [], fun _ => .ok "ok"⟩ "q" true [] =
      .error "boom" ∧
    ask ⟨true, .error "boom", .ok [], fun _ => .ok "ok"⟩ [] "q" true [] =
      ({ response := "Error generating response: boom", sources := [],
         context_used := none, error := true }, []) :=
  ⟨rfl, rfl,
    (C5_ask_error_handling ⟨true, .error "boom", .ok [], fun _ => .ok "ok"⟩
      [] "q" true []).2.1 "boom" rfl rfl⟩

/-- **C10.** `ask` appends a turn to the conversation history exactly
when it succeeds: every error result leaves the history unchanged, and
a success appends exactly one turn carrying the question, the response
and the sources of the result. -/
theorem C10_ask_appends_history_iff_success (env : AskEnv) (hist : List Turn)
    (q : String) (use_rag : Bool) (srcs : List String) :
    ((ask env hist q use_rag srcs).1.error = true →
      (ask env hist q use_rag srcs).2 = hist) ∧
    ((ask env hist q use_rag srcs).1.error = false →
      (ask env hist q use_rag srcs).2 =
        hist ++ [⟨q, (ask env hist q use_rag srcs).1.response,
                 (ask env hist q use_rag srcs).1.sources⟩]) := by
  cases hready : env.ready with
  | false => exact ⟨fun _ => by simp [ask, hready], fun hf => by simp [ask, hready] at hf⟩
  | true =>
    cases hbody : askBody env q use_rag srcs with
    | error e =>
      exact ⟨fun _ => by simp [ask, hready, hbody],
        fun hf => by simp [ask, hready, hbody] at hf⟩
    | ok v =>
      obtain ⟨rt, srcs', cu⟩ := v
      exact ⟨fun ht => by simp [ask, hready, hbody] at ht,
        fun _ => by simp [ask, hready, hbody]⟩

/-- Witness for C10: the raising environment leaves history unchanged;
a successful environment appends exactly the new turn. -/
theorem C10_ask_appends_history_iff_success_witness :
    (ask ⟨true, .error "boom", .ok [], fun _ => .ok "ok"⟩ [] "q" true []).1.error = true ∧
    (ask ⟨true, .error "boom", .ok [], fun _ => .ok "ok"⟩ [] "q" true []).2 = [] ∧
    (ask ⟨true, .ok [], .ok [], fun _ => .ok "answer"⟩ [] "q" true []).1.error = false ∧
    (ask ⟨true, .ok [], .ok [], fun _ => .ok "answer"⟩ [] "q" true []).2 =
      [] ++ [⟨"q", (ask ⟨true, .ok [], .ok [], fun _ => .ok "answer"⟩ [] "q" true []).1.response,
             (ask ⟨true, .ok [], .ok [], fun _ => .ok "answer"⟩ [] "q" true []).1.sources⟩] :=
  ⟨rfl,
    (C10_ask_appends_history_iff_success ⟨true, .error "boom", .ok [], fun _ => .ok "ok"⟩
      [] "q" true []).1 rfl,
    rfl,
    (C10_ask_appends_history_iff_success ⟨true, .ok [], .ok [], fun _ => .ok "answer"⟩
      [] "q" true []).2 rfl⟩

end BbcRag
